import Mathlib

/-!
# go-Health-Checker: a verification development

Shallow embedding of the health monitor (`aggregator.go`, `checker.go`,
`config.go`, `main.go`) and theorems about it.

Conventions of the embedding:

* Go `int64` / `time.Duration` values are `Int`; every arithmetic operation
  the source performs on them is followed by `wrap64`, the two's-complement
  wrap-around of Go's fixed-width arithmetic.
* A Go `error` is `Option String` (`none` is `nil`).
* `sync.Map` with `string` keys is an association list with at most one
  entry per key; `Store` replaces, `Load` looks up.
* The atomic operations of `AddResult` are modelled by their sequential
  effect: one call is one state transformer.
-/

namespace HealthChecker

/-! ## Machine integers -/

/-- Two's-complement wrap of an integer into the `int64` range. -/
def wrap64 (x : Int) : Int :=
  (x + 9223372036854775808) % 18446744073709551616 - 9223372036854775808

/-- Go `a + b` on `int64`. -/
def add64 (a b : Int) : Int := wrap64 (a + b)

/-- Go `a * b` on `int64`. -/
def mul64 (a b : Int) : Int := wrap64 (a * b)

/-- Go `a / b` on `int64`: the quotient truncated toward zero. -/
def div64 (a b : Int) : Int := wrap64 (Int.tdiv a b)

/-- The predicate that a value is representable as an `int64`. -/
def InInt64 (x : Int) : Prop :=
  -9223372036854775808 ≤ x ∧ x < 9223372036854775808

instance InInt64.decidable (x : Int) : Decidable (InInt64 x) := by
  unfold InInt64; infer_instance

/-! ## checker.go: the result of one health check -/

/-- `HealthCheckResult` of `checker.go`. `Latency` is a `time.Duration`
in nanoseconds, `Error` is `none` for Go's `nil`. -/
structure HealthCheckResult where
  URL : String
  StatusCode : Int
  Latency : Int
  Error : Option String
  deriving DecidableEq, Repr

/-! ## aggregator.go -/

/-- `ServiceMetrics` of `aggregator.go`. -/
structure ServiceMetrics where
  Status : String
  Latency : Int
  deriving DecidableEq, Repr

/-- The `sync.Map` of `AggregatedMetrics.ServiceStatus`: keys are URLs,
values are `ServiceMetrics`. -/
abbrev SyncMap := List (String × ServiceMetrics)

/-- `sync.Map.Store`: set the value for a key, replacing any previous one. -/
def SyncMap.Store (m : SyncMap) (key : String) (value : ServiceMetrics) : SyncMap :=
  (key, value) :: m.filter (fun e => e.1 != key)

/-- `sync.Map.Load`: the value stored for a key, if any. -/
def SyncMap.Load (m : SyncMap) (key : String) : Option ServiceMetrics :=
  (m.find? (fun e => e.1 == key)).map (fun e => e.2)

/-- `AggregatedMetrics` of `aggregator.go`. The counters and `TotalLatency`
are `int64`, `AverageLatency` is a `time.Duration`. -/
structure AggregatedMetrics where
  TotalChecks : Int
  SuccessfulPings : Int
  FailedPings : Int
  TotalLatency : Int
  AverageLatency : Int
  ServiceStatus : SyncMap
  deriving DecidableEq, Repr

/-- `NewAggregatedMetrics`: the zero value of the struct. -/
def NewAggregatedMetrics : AggregatedMetrics :=
  { TotalChecks := 0, SuccessfulPings := 0, FailedPings := 0,
    TotalLatency := 0, AverageLatency := 0, ServiceStatus := [] }

/-- `AggregatedMetrics.AddResult` (aggregator.go, lines 33-51). -/
def AddResult (a : AggregatedMetrics) (result : HealthCheckResult) : AggregatedMetrics :=
  let a := { a with TotalChecks := add64 a.TotalChecks 1 }
  if result.Error ≠ none then
    let a := { a with FailedPings := add64 a.FailedPings 1 }
    { a with ServiceStatus :=
        a.ServiceStatus.Store result.URL { Status := "DOWN", Latency := 0 } }
  else
    let a := { a with SuccessfulPings := add64 a.SuccessfulPings 1 }
    let a := { a with TotalLatency := add64 a.TotalLatency result.Latency }
    { a with ServiceStatus :=
        a.ServiceStatus.Store result.URL { Status := "UP", Latency := result.Latency } }

/-- `AggregatedMetrics.CalculateAverageLatency` (aggregator.go, lines 54-63);
`time.Nanosecond` is the duration 1. -/
def CalculateAverageLatency (a : AggregatedMetrics) : AggregatedMetrics :=
  let successfulPings := a.SuccessfulPings
  if successfulPings > 0 then
    let totalLatency := a.TotalLatency
    let averageNs := div64 totalLatency successfulPings
    { a with AverageLatency := mul64 averageNs 1 }
  else
    { a with AverageLatency := 0 }

/-- A sequence of results applied one after another with `AddResult`. -/
def applyResults (a : AggregatedMetrics) (rs : List HealthCheckResult) : AggregatedMetrics :=
  rs.foldl AddResult a

/-- Number of results of a sequence whose `Error` is non-nil. -/
def failures (rs : List HealthCheckResult) : Nat :=
  rs.countP (fun r => r.Error ≠ none)

/-- Sum of the `Latency` values of the results whose `Error` is nil. -/
def successLatencySum (rs : List HealthCheckResult) : Int :=
  ((rs.filter (fun r => r.Error = none)).map (fun r => r.Latency)).sum

/-- The counters and the latency accumulator are representable as `int64`. -/
def CountersInRange (a : AggregatedMetrics) : Prop :=
  InInt64 a.TotalChecks ∧ InInt64 a.SuccessfulPings ∧ InInt64 a.FailedPings ∧
    InInt64 a.TotalLatency

/-- The Go expression `TotalChecks == SuccessfulPings + FailedPings` on the
`int64` fields of the aggregator. -/
def CountInvariant (a : AggregatedMetrics) : Prop :=
  a.TotalChecks = add64 a.SuccessfulPings a.FailedPings

instance CountInvariant.decidable (a : AggregatedMetrics) : Decidable (CountInvariant a) := by
  unfold CountInvariant; infer_instance


/-! ## checker.go: `Ping` and `WorkerPool`

The network and the clock are outside the program. They are a parameter
`ProbeEnv σ` over a world state `σ`: what `time.Now`, `time.Since`,
`http.NewRequestWithContext` and `http.Client.Do` return, and how the call
of `Do` changes the world (time passes).

`WorkerPool` communicates through two channels, so it is a step function on
the state of the worker and of the channels: a receive from `jobs` and a send
on `results` occur only when the channel allows them. -/

/-- `Checker` of `checker.go`: the HTTP client, of which the program sets and
reads the `Timeout`. -/
structure Checker where
  Timeout : Int
  deriving DecidableEq, Repr

/-- `NewChecker` (checker.go, lines 26-32). -/
def NewChecker (timeout : Int) : Checker := { Timeout := timeout }

/-- The part of an `http.Response` that `Ping` reads. -/
structure Response where
  StatusCode : Int
  deriving DecidableEq, Repr

/-- The library calls of `Ping`. A context made by `context.WithTimeout` is
represented by its timeout. -/
structure ProbeEnv (σ : Type) where
  /-- The call `time.Now()`. -/
  now : σ → Int
  /-- The call `time.Since(start)`. -/
  since : σ → Int → Int
  /-- The error of `http.NewRequestWithContext(ctx, http.MethodGet, url, nil)`,
  `none` when the request was built. -/
  newRequestWithContext : Int → String → Option String
  /-- The call `c.client.Do(req)` for the request built from `ctx` and `url`:
  an error or a response, and the world after the call. -/
  clientDo : Checker → Int → String → σ → Except String Response × σ

/-- `Checker.Ping` (checker.go, lines 37-66). Fields a Go composite literal
leaves out are the zero value. -/
def Ping {σ : Type} (env : ProbeEnv σ) (c : Checker) (ctx : Int) (url : String) (w : σ) :
    HealthCheckResult × σ :=
  let start := env.now w
  match env.newRequestWithContext ctx url with
  | some err =>
    ({ URL := url, StatusCode := 0, Latency := 0,
       Error := some ("failed to create HTTP request: " ++ err) }, w)
  | none =>
    match env.clientDo c ctx url w with
    | (resp, w1) =>
      let latency := env.since w1 start
      match resp with
      | .error err =>
        ({ URL := url, StatusCode := 0, Latency := 0,
           Error := some ("failed to ping URL: " ++ err) }, w1)
      | .ok resp =>
        ({ URL := url, StatusCode := resp.StatusCode, Latency := latency, Error := none }, w1)

/-- Position of one worker goroutine (checker.go, lines 70-80). -/
inductive WorkerPC
  /-- At `range jobs` (line 71), waiting for a job or for the close. -/
  | receiving
  /-- A job was received, `Ping` has not returned yet (line 77). -/
  | probing (url : String)
  /-- At `results <- result` (line 78). -/
  | sending (result : HealthCheckResult)
  /-- The loop has ended and the function has returned. -/
  | returned
  deriving DecidableEq, Repr

/-- One goroutine running `WorkerPool` together with its two channels and
the goroutines at their other ends. -/
structure PoolState (σ : Type) where
  /-- The world the probes observe. -/
  world : σ
  /-- Endpoints the producer has yet to send on `jobs`. -/
  pending : List String
  /-- The values buffered in the channel `jobs`. -/
  jobs : List String
  jobsClosed : Bool
  /-- Where the worker is in `WorkerPool`. -/
  pc : WorkerPC
  /-- The values buffered in the channel `results`. -/
  results : List HealthCheckResult
  /-- The values that were received from `results`, oldest first. -/
  taken : List HealthCheckResult
  deriving DecidableEq, Repr

/-- The steps of a worker and of the goroutines at the other ends of its
channels. -/
inductive PoolEvent
  /-- The producer sends the next endpoint into the buffer of `jobs`. -/
  | produce
  /-- The producer sends the next endpoint while the worker waits at
  `range jobs` with the buffer empty: the value goes to the worker. -/
  | produceDirect
  /-- The producer has sent every endpoint and closes `jobs`. -/
  | closeJobs
  /-- `for url := range jobs` receives a buffered job (line 71). -/
  | recv
  /-- The call `checker.Ping(ctx, url)` returns (line 77). -/
  | ping
  /-- The send `results <- result` puts the result into the buffer (line 78). -/
  | send
  /-- The send `results <- result` while a receiver waits with the buffer
  empty: the value goes to the receiver (line 78). -/
  | sendDirect
  /-- `range jobs` finds the channel closed and empty: the function returns. -/
  | ret
  /-- A receiver takes the oldest buffered result. -/
  | take
  deriving DecidableEq, Repr

/-- `WorkerPool` (checker.go, lines 70-80) as the step function of the
goroutine that runs it: the state after the event, `none` when the event
cannot occur (the goroutine is elsewhere or is blocked). `jobsCap` and
`resultsCap` are the capacities of the two channels; `receiver` tells
whether some goroutine receives from `results`. A send proceeds when the
buffer has room or a receiver is waiting, and blocks otherwise; a receive
proceeds when the buffer holds a value or a sender is waiting. The context of
line 74 is represented by `checker.Timeout`. -/
def WorkerPool {σ : Type} (env : ProbeEnv σ) (checker : Checker) (jobsCap resultsCap : Nat)
    (receiver : Bool) (s : PoolState σ) : PoolEvent → Option (PoolState σ)
  | .produce =>
    match s.pending with
    | url :: rest =>
      if s.jobs.length < jobsCap then some { s with pending := rest, jobs := s.jobs ++ [url] }
      else none
    | [] => none
  | .produceDirect =>
    match s.pending, s.pc, s.jobs with
    | url :: rest, .receiving, [] => some { s with pending := rest, pc := WorkerPC.probing url }
    | _, _, _ => none
  | .closeJobs =>
    match s.pending, s.jobsClosed with
    | [], false => some { s with jobsClosed := true }
    | _, _ => none
  | .recv =>
    match s.pc, s.jobs with
    | .receiving, url :: rest => some { s with jobs := rest, pc := WorkerPC.probing url }
    | _, _ => none
  | .ping =>
    match s.pc with
    | .probing url =>
      let ctx := checker.Timeout
      match Ping env checker ctx url s.world with
      | (result, w1) => some { s with world := w1, pc := WorkerPC.sending result }
    | _ => none
  | .send =>
    match s.pc with
    | .sending result =>
      if s.results.length < resultsCap then
        some { s with results := s.results ++ [result], pc := WorkerPC.receiving }
      else none
    | _ => none
  | .sendDirect =>
    match s.pc, s.results with
    | .sending result, [] =>
      if receiver then some { s with taken := s.taken ++ [result], pc := WorkerPC.receiving }
      else none
    | _, _ => none
  | .ret =>
    match s.pc, s.jobs with
    | .receiving, [] => if s.jobsClosed then some { s with pc := WorkerPC.returned } else none
    | _, _ => none
  | .take =>
    match s.results with
    | result :: rest =>
      if receiver then some { s with results := rest, taken := s.taken ++ [result] } else none
    | [] => none

/-- An execution of a worker and its channels: the events occur one after
another; `none` when one of them cannot occur. -/
def runPool {σ : Type} (env : ProbeEnv σ) (checker : Checker) (jobsCap resultsCap : Nat)
    (receiver : Bool) : PoolState σ → List PoolEvent → Option (PoolState σ)
  | s, [] => some s
  | s, e :: es =>
    match WorkerPool env checker jobsCap resultsCap receiver s e with
    | some s1 => runPool env checker jobsCap resultsCap receiver s1 es
    | none => none

/-- The start of `WorkerPool`: the worker is at `range jobs`, both channels
are empty, the producer is about to deliver `endpoints` and then close
`jobs`. -/
def PoolState.init {σ : Type} (endpoints : List String) (w : σ) : PoolState σ :=
  { world := w, pending := endpoints, jobs := [], jobsClosed := false,
    pc := WorkerPC.receiving, results := [], taken := [] }

/-- Every result the worker has sent so far, oldest first: those already
received and those still buffered in `results`. -/
def PoolState.sent {σ : Type} (s : PoolState σ) : List HealthCheckResult :=
  s.taken ++ s.results

/-- The endpoint the worker holds: received from `jobs`, its result not yet
sent. -/
def WorkerPC.held : WorkerPC → List String
  | .probing url => [url]
  | .sending result => [result.URL]
  | _ => []

/-- Specification of the worker's output: the results of `Ping` for the given
endpoints one after another, each probe starting in the world the previous
one has left, and the world after the last. -/
def pingInOrder {σ : Type} (env : ProbeEnv σ) (checker : Checker) :
    List String → σ → List HealthCheckResult × σ
  | [], w => ([], w)
  | url :: urls, w =>
    match Ping env checker checker.Timeout url w with
    | (result, w1) =>
      match pingInOrder env checker urls w1 with
      | (rest, w2) => (result :: rest, w2)

/-- A bound on the number of steps still possible from a state. -/
def poolMeasure {σ : Type} (s : PoolState σ) : Nat :=
  7 * s.pending.length + 5 * s.jobs.length + (if s.jobsClosed = true then 0 else 1)
    + (match s.pc with
       | .receiving => 1
       | .probing _ => 4
       | .sending _ => 3
       | .returned => 0)
    + s.results.length

/-- What holds of a worker and its channels throughout an execution that
started with `PoolState.init endpoints w0`: the endpoints are those whose
result was sent, then the one held, then those buffered, then those to come;
the results sent are the specified ones; the world is the one the completed
probes have left; `jobs` is closed only when all was delivered; the worker
has returned only from a closed and empty `jobs`. -/
def PoolInv {σ : Type} (env : ProbeEnv σ) (checker : Checker) (endpoints : List String)
    (w0 : σ) (s : PoolState σ) : Prop :=
  endpoints = s.sent.map (fun r => r.URL) ++ s.pc.held ++ s.jobs ++ s.pending ∧
  s.sent = (pingInOrder env checker (s.sent.map (fun r => r.URL)) w0).1 ∧
  (match s.pc with
   | .sending result =>
     result = (Ping env checker checker.Timeout result.URL
        (pingInOrder env checker (s.sent.map (fun r => r.URL)) w0).2).1 ∧
     s.world = (Ping env checker checker.Timeout result.URL
        (pingInOrder env checker (s.sent.map (fun r => r.URL)) w0).2).2
   | _ => s.world = (pingInOrder env checker (s.sent.map (fun r => r.URL)) w0).2) ∧
  (s.jobsClosed = true → s.pending = []) ∧
  (s.pc = WorkerPC.returned → s.jobs = [] ∧ s.jobsClosed = true)

/-! ## config.go -/

/-- `Config` of `config.go`; the two durations are `time.Duration` values. -/
structure Config where
  PingInterval : Int
  Concurrency : Int
  RequestTimeout : Int
  Services : List String
  deriving DecidableEq, Repr

/-- The library calls of `LoadConfiguration`. -/
structure ConfigEnv where
  /-- The call `os.Open(file)`: an error or the contents of the file. -/
  osOpen : String → Except String String
  /-- The call `decoder.Decode(&config)` into a zero `Config`: a JSON number
  under `ping_interval_ms` or `request_timeout_ms` becomes the `time.Duration`
  of that number. -/
  decode : String → Except String Config
  /-- The call `os.LookupEnv(key)`. -/
  lookupEnv : String → Option String
  /-- The call `time.ParseDuration(s)`, `none` when it returns an error. -/
  parseDuration : String → Option Int
  /-- The value `fmt.Sscan(val, &n)` stores in `n`, `none` when it stores none. -/
  sscan : String → Option Int

/-- The constant `time.Millisecond`. -/
def Millisecond : Int := 1000000

/-- `LoadConfiguration` (config.go, lines 26-64). -/
def LoadConfiguration (env : ConfigEnv) (file : String) : Except String Config :=
  match env.osOpen file with
  | .error err => .error ("failed to open config file: " ++ err)
  | .ok configFile =>
    match env.decode configFile with
    | .error err => .error ("failed to decode JSON config: " ++ err)
    | .ok config =>
      let config :=
        match env.lookupEnv "PING_INTERVAL_MS" with
        | some val =>
          match env.parseDuration (val ++ "ms") with
          | some d => { config with PingInterval := d }
          | none => config
        | none => config
      let config :=
        match env.lookupEnv "CONCURRENCY" with
        | some val =>
          match env.sscan val with
          | some n => { config with Concurrency := n }
          | none => config
        | none => config
      let config :=
        match env.lookupEnv "REQUEST_TIMEOUT_MS" with
        | some val =>
          match env.parseDuration (val ++ "ms") with
          | some d => { config with RequestTimeout := d }
          | none => config
        | none => config
      let config := { config with PingInterval := mul64 config.PingInterval Millisecond }
      let config := { config with RequestTimeout := mul64 config.RequestTimeout Millisecond }
      .ok config

/-- The value of a string of decimal digits, `none` if a character is not a
digit; `acc` is the value of the digits read so far. -/
def digitsValue : List Char → Nat → Option Nat
  | [], acc => some acc
  | c :: cs, acc =>
    if c.isDigit then digitsValue cs (acc * 10 + (c.toNat - 48)) else none

/-- What `time.ParseDuration` returns on a non-empty string of decimal digits
followed by `ms`: that many milliseconds in nanoseconds, or an error when the
value does not fit a `time.Duration`. Strings of any other form are not
covered and are given as errors. -/
def parseDurationMs (s : String) : Option Int :=
  match s.data.reverse with
  | 's' :: 'm' :: d :: ds =>
    match digitsValue (d :: ds).reverse 0 with
    | some n => if (n : Int) * Millisecond < 9223372036854775808
                then some ((n : Int) * Millisecond) else none
    | none => none
  | _ => none

/-- An environment for evaluation: the file decodes to the given `Config`,
the environment variables are the given table, durations are parsed by
`parseDurationMs`. -/
def sampleConfigEnv (fileConfig : Config) (vars : List (String × String)) : ConfigEnv :=
  { osOpen := fun _ => .ok "config.json",
    decode := fun _ => .ok fileConfig,
    lookupEnv := fun key => (vars.find? (fun e => e.1 == key)).map (fun e => e.2),
    parseDuration := parseDurationMs,
    sscan := fun val => (digitsValue val.data 0).map (fun n => (n : Int)) }


/-! ## main.go: the goroutines of `main` as a transition system

After its set-up (lines 14-74) `main` is a set of goroutines that interact
through four channels: `Concurrency` workers running `WorkerPool`, the
goroutine that applies results with `AddResult`, the orchestration
goroutine, and the main goroutine itself. One step of the system is one
communication or one call by one goroutine; an execution is a sequence of
steps, chosen by the scheduler and the environment. A buffered channel is
the list of the values it holds. -/

/-- Position of the main goroutine (main.go, lines 78-85). -/
inductive MainPC
  /-- Blocked at `<-shutdownChan` (line 78). -/
  | waitSignal
  /-- Blocked at `wg.Wait()` (line 81). -/
  | wgWait
  /-- Before `close(results)` (line 83). -/
  | closeResults
  /-- After `close(results)`, before the return (line 84). -/
  | exiting
  /-- The function `main` has returned: the program has stopped. -/
  | returned
  deriving DecidableEq, Repr

/-- Position of the orchestration goroutine (main.go, lines 55-74). -/
inductive OrchPC
  /-- At the `select` (line 60). -/
  | select
  /-- In the loop of lines 62-64 with these services still to send. -/
  | sending (rest : List String)
  /-- After the `return` of line 71. -/
  | returned
  deriving DecidableEq, Repr

/-- State of the running program. -/
structure Sys (σ : Type) where
  /-- The world the probes observe. -/
  world : σ
  /-- Shutdown signals the operating system has yet to deliver. -/
  signalsToCome : Nat
  /-- Number of values held by `shutdownChan` (capacity 1). -/
  shutdownChan : Nat
  /-- Number of ticks held by `ticker.C` (capacity 1). -/
  tickerC : Nat
  /-- The channel `jobs` (capacity `Concurrency`). -/
  jobs : List String
  jobsClosed : Bool
  /-- The channel `results` (capacity `Concurrency`). -/
  results : List HealthCheckResult
  resultsClosed : Bool
  workers : List WorkerPC
  orchestrator : OrchPC
  mainPC : MainPC
  /-- The loop `for result := range results` (lines 48-52) has ended. -/
  consumerDone : Bool
  aggregator : AggregatedMetrics
  /-- Number of times the tick branch of the `select` was taken. -/
  ticksProcessed : Nat
  deriving DecidableEq, Repr

/-- The steps of the system. -/
inductive Event
  /-- The operating system delivers SIGINT or SIGTERM: `signal.Notify` puts
  a value into `shutdownChan` if there is room and drops it otherwise. -/
  | signal
  /-- The ticker fires: a tick is put into `ticker.C` if there is room. -/
  | tick
  /-- The `select` takes `case <-ticker.C` (line 61). -/
  | orchTick
  /-- The `select` takes `case <-shutdownChan` (lines 68-71). -/
  | orchShutdown
  /-- One `jobs <- service` (line 63). -/
  | orchSend
  /-- The loop of line 62 is over: lines 66-67, back to the `select`. -/
  | orchReport
  /-- Worker `i` receives a job. -/
  | workerRecv (i : Nat)
  /-- The call of `Ping` by worker `i` returns. -/
  | workerPing (i : Nat)
  /-- Worker `i` sends its result. -/
  | workerSend (i : Nat)
  /-- Worker `i` finds `jobs` closed and empty and returns. -/
  | workerReturn (i : Nat)
  /-- The result goroutine receives a result and calls `AddResult` (line 50). -/
  | consume
  /-- The result goroutine finds `results` closed and empty and returns. -/
  | consumerReturn
  /-- The main goroutine receives from `shutdownChan` (line 78). -/
  | mainSignal
  /-- The call `wg.Wait()` returns (line 81). -/
  | mainWaitDone
  /-- The call `close(results)` (line 83). -/
  | mainClose
  /-- The function `main` returns (line 85). -/
  | mainReturn
  deriving DecidableEq, Repr

/-- The state when every goroutine has been started and the main goroutine
has reached line 78; `signals` shutdown signals will be delivered. -/
def Sys.init {σ : Type} (config : Config) (w : σ) (signals : Nat) : Sys σ :=
  { world := w, signalsToCome := signals, shutdownChan := 0, tickerC := 0,
    jobs := [], jobsClosed := false, results := [], resultsClosed := false,
    workers := List.replicate config.Concurrency.toNat WorkerPC.receiving,
    orchestrator := OrchPC.select, mainPC := MainPC.waitSignal,
    consumerDone := false, aggregator := NewAggregatedMetrics, ticksProcessed := 0 }

/-- One step: the state after the event, `none` when the event cannot occur
in the state (the goroutine is elsewhere or blocked). No step occurs once
`main` has returned. A Go `select` with several ready cases proceeds with any
one of them, so at line 60 `orchTick` can occur whenever `ticker.C` holds a
tick and `orchShutdown` whenever `shutdownChan` holds a value. -/
def step {σ : Type} (env : ProbeEnv σ) (config : Config) (checker : Checker) (s : Sys σ) :
    Event → Option (Sys σ)
  | .signal =>
    if s.mainPC = MainPC.returned then none
    else if s.signalsToCome = 0 then none
    else if s.shutdownChan < 1 then
      some { s with signalsToCome := s.signalsToCome - 1, shutdownChan := s.shutdownChan + 1 }
    else some { s with signalsToCome := s.signalsToCome - 1 }
  | .tick =>
    if s.mainPC = MainPC.returned then none
    else if s.orchestrator = OrchPC.returned then none
    else if s.tickerC < 1 then some { s with tickerC := s.tickerC + 1 }
    else some s
  | .orchTick =>
    if s.mainPC = MainPC.returned then none
    else if s.orchestrator = OrchPC.select ∧ 0 < s.tickerC then
      some { s with tickerC := s.tickerC - 1, orchestrator := OrchPC.sending config.Services,
                    ticksProcessed := s.ticksProcessed + 1 }
    else none
  | .orchShutdown =>
    if s.mainPC = MainPC.returned then none
    else if s.orchestrator = OrchPC.select ∧ 0 < s.shutdownChan then
      some { s with shutdownChan := s.shutdownChan - 1, jobsClosed := true,
                    orchestrator := OrchPC.returned }
    else none
  | .orchSend =>
    if s.mainPC = MainPC.returned then none
    else match s.orchestrator with
      | .sending (service :: rest) =>
        if s.jobsClosed = false ∧ s.jobs.length < config.Concurrency.toNat then
          some { s with jobs := s.jobs ++ [service], orchestrator := OrchPC.sending rest }
        else none
      | _ => none
  | .orchReport =>
    if s.mainPC = MainPC.returned then none
    else match s.orchestrator with
      | .sending [] =>
        some { s with aggregator := CalculateAverageLatency s.aggregator,
                      orchestrator := OrchPC.select }
      | _ => none
  | .workerRecv i =>
    if s.mainPC = MainPC.returned then none
    else match s.workers.get? i, s.jobs with
      | some .receiving, url :: rest =>
        some { s with jobs := rest, workers := s.workers.set i (WorkerPC.probing url) }
      | _, _ => none
  | .workerPing i =>
    if s.mainPC = MainPC.returned then none
    else match s.workers.get? i with
      | some (.probing url) =>
        match Ping env checker checker.Timeout url s.world with
        | (result, w1) =>
          some { s with world := w1, workers := s.workers.set i (WorkerPC.sending result) }
      | _ => none
  | .workerSend i =>
    if s.mainPC = MainPC.returned then none
    else match s.workers.get? i with
      | some (.sending result) =>
        if s.resultsClosed = false ∧ s.results.length < config.Concurrency.toNat then
          some { s with results := s.results ++ [result],
                        workers := s.workers.set i WorkerPC.receiving }
        else none
      | _ => none
  | .workerReturn i =>
    if s.mainPC = MainPC.returned then none
    else match s.workers.get? i, s.jobs with
      | some .receiving, [] =>
        if s.jobsClosed then some { s with workers := s.workers.set i WorkerPC.returned }
        else none
      | _, _ => none
  | .consume =>
    if s.mainPC = MainPC.returned then none
    else match s.consumerDone, s.results with
      | false, result :: rest =>
        some { s with results := rest, aggregator := AddResult s.aggregator result }
      | _, _ => none
  | .consumerReturn =>
    if s.mainPC = MainPC.returned then none
    else match s.consumerDone, s.results with
      | false, [] => if s.resultsClosed then some { s with consumerDone := true } else none
      | _, _ => none
  | .mainSignal =>
    if s.mainPC = MainPC.waitSignal ∧ 0 < s.shutdownChan then
      some { s with shutdownChan := s.shutdownChan - 1, mainPC := MainPC.wgWait }
    else none
  | .mainWaitDone =>
    if s.mainPC = MainPC.wgWait ∧ s.workers.all (fun w => w = WorkerPC.returned) then
      some { s with mainPC := MainPC.closeResults }
    else none
  | .mainClose =>
    if s.mainPC = MainPC.closeResults then
      some { s with resultsClosed := true, mainPC := MainPC.exiting }
    else none
  | .mainReturn =>
    if s.mainPC = MainPC.exiting then some { s with mainPC := MainPC.returned } else none

/-- An execution: the events occur one after another; `none` when one of them
cannot occur. -/
def run {σ : Type} (env : ProbeEnv σ) (config : Config) (checker : Checker) :
    Sys σ → List Event → Option (Sys σ)
  | s, [] => some s
  | s, e :: es =>
    match step env config checker s e with
    | some s1 => run env config checker s1 es
    | none => none

/-- A state in which the `select` of line 60 finds both of its cases ready:
a tick in `ticker.C` and a signal in `shutdownChan`. -/
def bothReadyState : Sys Int :=
  { world := 0, signalsToCome := 0, shutdownChan := 1, tickerC := 1,
    jobs := [], jobsClosed := false, results := [], resultsClosed := false,
    workers := [.receiving, .receiving],
    orchestrator := .select, mainPC := .waitSignal, consumerDone := false,
    aggregator := NewAggregatedMetrics, ticksProcessed := 0 }

/-- The bookkeeping of a run in which at most one shutdown signal exists:
the signal is still to come, or held by `shutdownChan`, or was received by
the main goroutine (which has then left line 78), or was received by the
orchestration goroutine (which has then closed `jobs`); no worker has
returned while `jobs` is open; there is a worker; the main goroutine is at
line 78 or at line 81. -/
def SingleSignal {σ : Type} (s : Sys σ) : Prop :=
  s.signalsToCome + s.shutdownChan + (if s.mainPC = MainPC.waitSignal then 0 else 1)
      + (if s.jobsClosed = true then 1 else 0) ≤ 1 ∧
  (s.jobsClosed = false → ∀ w ∈ s.workers, w ≠ WorkerPC.returned) ∧
  0 < s.workers.length ∧
  (s.mainPC = MainPC.waitSignal ∨ s.mainPC = MainPC.wgWait)

/-- A world for evaluation: a clock in nanoseconds. Every request takes
`cost url` nanoseconds; `refuse url` is the transport error of the URL, if
any, and `status url` the status code of its response. -/
def sampleProbeEnv (cost : String → Int) (refuse : String → Option String)
    (status : String → Int) : ProbeEnv Int :=
  { now := fun w => w,
    since := fun w start => w - start,
    newRequestWithContext := fun _ url => if url = "" then some "empty url" else none,
    clientDo := fun _ _ url w =>
      match refuse url with
      | some err => (.error err, w + cost url)
      | none => (.ok { StatusCode := status url }, w + cost url) }

/-- The configuration of the end-to-end scenario: two workers, endpoints
`A`, `B` and `C`. -/
def scenarioConfig : Config :=
  { PingInterval := 1000000000, Concurrency := 2, RequestTimeout := 500000000,
    Services := ["A", "B", "C"] }

/-- The network of the end-to-end scenario: `A` answers 200, `B` does not
answer within the timeout, `C` answers 500. -/
def scenarioEnv : ProbeEnv Int :=
  sampleProbeEnv (fun url => if url = "B" then 500000000 else 7000)
    (fun url => if url = "B" then some "context deadline exceeded" else none)
    (fun url => if url = "C" then 500 else 200)

/-- The checker of the end-to-end scenario. -/
def scenarioChecker : Checker := NewChecker scenarioConfig.RequestTimeout

/-- A schedule that leads to the shutdown scenario: one tick is processed,
the two workers have received `A` and `B` and their probes are in flight, `C`
is queued in `jobs`, and the single shutdown signal has arrived. -/
def scenarioSchedule : List Event :=
  [.tick, .orchTick, .orchSend, .orchSend, .workerRecv 0, .workerRecv 1, .orchSend,
   .orchReport, .signal]

/-- The state the scenario schedule leads to. -/
def scenarioState : Sys Int :=
  { world := 0, signalsToCome := 0, shutdownChan := 1, tickerC := 0,
    jobs := ["C"], jobsClosed := false, results := [], resultsClosed := false,
    workers := [.probing "A", .probing "B"],
    orchestrator := .select, mainPC := .waitSignal, consumerDone := false,
    aggregator := NewAggregatedMetrics, ticksProcessed := 1 }

/-- Continuation in which the orchestration goroutine receives the signal:
`jobs` is closed, the three probes complete and are recorded, the workers
return. -/
def orchestratorFirst : List Event :=
  [.orchShutdown, .workerPing 0, .workerSend 0, .workerRecv 0, .workerPing 1, .workerSend 1,
   .consume, .consume, .workerPing 0, .workerSend 0, .consume, .workerReturn 0,
   .workerReturn 1]

/-- The state after `orchestratorFirst`. -/
def drainedState : Sys Int :=
  { world := 500014000, signalsToCome := 0, shutdownChan := 0, tickerC := 0,
    jobs := [], jobsClosed := true, results := [], resultsClosed := false,
    workers := [.returned, .returned],
    orchestrator := .returned, mainPC := .waitSignal, consumerDone := false,
    aggregator :=
      { TotalChecks := 3, SuccessfulPings := 2, FailedPings := 1, TotalLatency := 14000,
        AverageLatency := 0,
        ServiceStatus := [("C", { Status := "UP", Latency := 7000 }),
                          ("B", { Status := "DOWN", Latency := 0 }),
                          ("A", { Status := "UP", Latency := 7000 })] },
    ticksProcessed := 1 }

/-- Continuation in which the main goroutine receives the signal: the three
probes complete and are recorded, then the ticker fires and the orchestration
goroutine processes another tick. -/
def mainFirst : List Event :=
  [.mainSignal, .workerPing 0, .workerSend 0, .workerRecv 0, .workerPing 1, .workerSend 1,
   .consume, .consume, .workerPing 0, .workerSend 0, .consume, .tick, .orchTick]

/-- The state after `mainFirst`. -/
def tickingState : Sys Int :=
  { world := 500014000, signalsToCome := 0, shutdownChan := 0, tickerC := 0,
    jobs := [], jobsClosed := false, results := [], resultsClosed := false,
    workers := [.receiving, .receiving],
    orchestrator := .sending ["A", "B", "C"], mainPC := .wgWait, consumerDone := false,
    aggregator :=
      { TotalChecks := 3, SuccessfulPings := 2, FailedPings := 1, TotalLatency := 14000,
        AverageLatency := 0,
        ServiceStatus := [("C", { Status := "UP", Latency := 7000 }),
                          ("B", { Status := "DOWN", Latency := 0 }),
                          ("A", { Status := "UP", Latency := 7000 })] },
    ticksProcessed := 2 }


/-- A schedule of one worker for the endpoints `A`, `B`, `C` with channels
of capacity 2 in which nothing is received from `results`: the endpoints are
delivered, `jobs` is closed, the worker sends the results of `A` and `B` and
probes `C`. -/
def blockedSchedule : List PoolEvent :=
  [.produce, .produce, .recv, .produce, .closeJobs, .ping, .send, .recv, .ping, .send,
   .recv, .ping]

/-- The state after `blockedSchedule`. -/
def blockedState : PoolState Int :=
  { world := 500014000, pending := [], jobs := [], jobsClosed := true,
    pc := .sending { URL := "C", StatusCode := 500, Latency := 7000, Error := none },
    results :=
      [{ URL := "A", StatusCode := 200, Latency := 7000, Error := none },
       { URL := "B", StatusCode := 0, Latency := 0,
         Error := some "failed to ping URL: context deadline exceeded" }],
    taken := [] }

/-- The state after `blockedSchedule` continued with a receiver: one result
is taken, the worker sends the result of `C` and returns, the other two
results are taken. -/
def completedState : PoolState Int :=
  { world := 500014000, pending := [], jobs := [], jobsClosed := true,
    pc := .returned, results := [],
    taken :=
      [{ URL := "A", StatusCode := 200, Latency := 7000, Error := none },
       { URL := "B", StatusCode := 0, Latency := 0,
         Error := some "failed to ping URL: context deadline exceeded" },
       { URL := "C", StatusCode := 500, Latency := 7000, Error := none }] }

/-! # Theorems

## Arithmetic of `wrap64` -/

theorem wrap64_inInt64 (x : Int) : InInt64 (wrap64 x) := by
  unfold InInt64 wrap64; omega

theorem wrap64_of_inInt64 {x : Int} (h : InInt64 x) : wrap64 x = x := by
  unfold InInt64 at h; unfold wrap64; omega

theorem wrap64_wrap64_add (x y : Int) : wrap64 (wrap64 x + y) = wrap64 (x + y) := by
  unfold wrap64; omega

theorem wrap64_add_wrap64 (x y : Int) : wrap64 (x + wrap64 y) = wrap64 (x + y) := by
  unfold wrap64; omega

theorem tdiv_inInt64 {a b : Int} (ha : InInt64 a) (hb : 0 < b) : InInt64 (Int.tdiv a b) := by
  unfold InInt64 at *
  rcases Int.le_total 0 a with h | h
  · have h1 : 0 ≤ Int.tdiv a b := Int.tdiv_nonneg h (le_of_lt hb)
    have h2 : Int.tdiv a b ≤ a := by
      rw [Int.tdiv_eq_ediv h (le_of_lt hb)]; exact Int.ediv_le_self b h
    omega
  · have hn : 0 ≤ -a := by omega
    have h1 : 0 ≤ Int.tdiv (-a) b := Int.tdiv_nonneg hn (le_of_lt hb)
    have h2 : Int.tdiv (-a) b ≤ -a := by
      rw [Int.tdiv_eq_ediv hn (le_of_lt hb)]; exact Int.ediv_le_self b hn
    rw [Int.neg_tdiv] at h1 h2
    omega

/-! ## The status table -/

theorem SyncMap.Load_Store (m : SyncMap) (k k2 : String) (v : ServiceMetrics) :
    (m.Store k v).Load k2 = if k = k2 then some v else m.Load k2 := by
  unfold SyncMap.Store SyncMap.Load
  by_cases h : k = k2
  · simp [h]
  · have hne : (k == k2) = false := by simpa using h
    simp only [List.find?_cons, hne, h, if_false, List.find?_filter]
    congr 2
    funext e
    by_cases he : e.1 = k2
    · have hk : ¬ k2 = k := fun hk => h hk.symm
      simp [he, hk]
    · simp [he]

/-- The table entry one result writes. -/
theorem Load_AddResult (a : AggregatedMetrics) (r : HealthCheckResult) (u : String) :
    (AddResult a r).ServiceStatus.Load u =
      if r.URL = u then
        some (if r.Error ≠ none then { Status := "DOWN", Latency := 0 }
              else { Status := "UP", Latency := r.Latency })
      else a.ServiceStatus.Load u := by
  unfold AddResult
  by_cases he : r.Error = none <;> simp [he, SyncMap.Load_Store]

theorem applyResults_cons (a : AggregatedMetrics) (r : HealthCheckResult)
    (rs : List HealthCheckResult) :
    applyResults a (r :: rs) = applyResults (AddResult a r) rs := rfl

theorem applyResults_append (a : AggregatedMetrics) (xs ys : List HealthCheckResult) :
    applyResults a (xs ++ ys) = applyResults (applyResults a xs) ys := by
  unfold applyResults; exact List.foldl_append _ _ _ _

theorem Load_applyResults_of_absent (u : String) (rs : List HealthCheckResult)
    (a : AggregatedMetrics) (h : ∀ r ∈ rs, r.URL ≠ u) :
    (applyResults a rs).ServiceStatus.Load u = a.ServiceStatus.Load u := by
  induction rs generalizing a with
  | nil => rfl
  | cons r rs ih =>
    rw [applyResults_cons, ih _ (fun x hx => h x (List.mem_cons_of_mem _ hx)), Load_AddResult]
    simp [h r (List.mem_cons_self _ _)]

/-! ## The counters -/

theorem failures_cons (r : HealthCheckResult) (rs : List HealthCheckResult) :
    failures (r :: rs) = failures rs + (if r.Error = none then 0 else 1) := by
  unfold failures
  rw [List.countP_cons]
  by_cases he : r.Error = none <;> simp [he]

theorem failures_le_length (rs : List HealthCheckResult) : failures rs ≤ rs.length :=
  List.countP_le_length _

theorem TotalChecks_applyResults (rs : List HealthCheckResult) (a : AggregatedMetrics) :
    wrap64 (applyResults a rs).TotalChecks = wrap64 (a.TotalChecks + rs.length) := by
  induction rs generalizing a with
  | nil => simp [applyResults]
  | cons r rs ih =>
    rw [applyResults_cons, ih]
    have : (AddResult a r).TotalChecks = wrap64 (a.TotalChecks + 1) := by
      unfold AddResult add64; by_cases he : r.Error = none <;> simp [he]
    rw [this, wrap64_wrap64_add]
    congr 1
    simp only [List.length_cons]; push_cast; ring

theorem FailedPings_applyResults (rs : List HealthCheckResult) (a : AggregatedMetrics) :
    wrap64 (applyResults a rs).FailedPings = wrap64 (a.FailedPings + failures rs) := by
  induction rs generalizing a with
  | nil => simp [applyResults, failures]
  | cons r rs ih =>
    rw [applyResults_cons, ih]
    by_cases he : r.Error = none
    · have : (AddResult a r).FailedPings = a.FailedPings := by
        unfold AddResult; simp [he]
      rw [this, failures_cons]; simp [he]
    · have : (AddResult a r).FailedPings = wrap64 (a.FailedPings + 1) := by
        unfold AddResult add64; simp [he]
      rw [this, wrap64_wrap64_add]
      congr 1
      rw [failures_cons]; simp only [he, if_false]; push_cast; ring

theorem SuccessfulPings_applyResults (rs : List HealthCheckResult) (a : AggregatedMetrics) :
    wrap64 (applyResults a rs).SuccessfulPings
      = wrap64 (a.SuccessfulPings + (rs.length - failures rs : Int)) := by
  induction rs generalizing a with
  | nil => simp [applyResults, failures]
  | cons r rs ih =>
    rw [applyResults_cons, ih]
    by_cases he : r.Error = none
    · have : (AddResult a r).SuccessfulPings = wrap64 (a.SuccessfulPings + 1) := by
        unfold AddResult add64; simp [he]
      rw [this, wrap64_wrap64_add]
      congr 1
      rw [failures_cons]; simp only [he, if_true, List.length_cons]; push_cast; ring
    · have : (AddResult a r).SuccessfulPings = a.SuccessfulPings := by
        unfold AddResult; simp [he]
      rw [this]
      congr 1
      rw [failures_cons]; simp only [he, if_false, List.length_cons]; push_cast; ring

theorem TotalLatency_applyResults (rs : List HealthCheckResult) (a : AggregatedMetrics) :
    wrap64 (applyResults a rs).TotalLatency
      = wrap64 (a.TotalLatency + successLatencySum rs) := by
  induction rs generalizing a with
  | nil => simp [applyResults, successLatencySum]
  | cons r rs ih =>
    rw [applyResults_cons, ih]
    by_cases he : r.Error = none
    · have : (AddResult a r).TotalLatency = wrap64 (a.TotalLatency + r.Latency) := by
        unfold AddResult add64; simp [he]
      rw [this, wrap64_wrap64_add]
      congr 1
      simp [successLatencySum, List.filter_cons, he]; ring
    · have : (AddResult a r).TotalLatency = a.TotalLatency := by
        unfold AddResult; simp [he]
      rw [this]
      simp [successLatencySum, List.filter_cons, he]

theorem CountersInRange_AddResult (a : AggregatedMetrics) (r : HealthCheckResult)
    (h : CountersInRange a) : CountersInRange (AddResult a r) := by
  obtain ⟨h1, h2, h3, h4⟩ := h
  unfold CountersInRange AddResult add64
  by_cases he : r.Error = none <;> simp [he, wrap64_inInt64, h1, h2, h3, h4]

theorem CountersInRange_applyResults (rs : List HealthCheckResult) (a : AggregatedMetrics)
    (h : CountersInRange a) : CountersInRange (applyResults a rs) := by
  induction rs generalizing a with
  | nil => exact h
  | cons r rs ih => exact ih _ (CountersInRange_AddResult a r h)

theorem CountersInRange_New : CountersInRange NewAggregatedMetrics := by
  unfold CountersInRange NewAggregatedMetrics InInt64; simp


/-! ## A fresh aggregator after a sequence of results -/

theorem fresh_fields (rs : List HealthCheckResult)
    (hN : (rs.length : Int) < 9223372036854775808) :
    (applyResults NewAggregatedMetrics rs).TotalChecks = rs.length ∧
    (applyResults NewAggregatedMetrics rs).FailedPings = failures rs ∧
    (applyResults NewAggregatedMetrics rs).SuccessfulPings = (rs.length : Int) - failures rs ∧
    (applyResults NewAggregatedMetrics rs).TotalLatency = wrap64 (successLatencySum rs) := by
  obtain ⟨r1, r2, r3, r4⟩ := CountersInRange_applyResults rs _ CountersInRange_New
  have hF : (failures rs : Int) ≤ rs.length := by exact_mod_cast failures_le_length rs
  have hF0 : (0 : Int) ≤ failures rs := Int.natCast_nonneg _
  have h1 := TotalChecks_applyResults rs NewAggregatedMetrics
  have h2 := FailedPings_applyResults rs NewAggregatedMetrics
  have h3 := SuccessfulPings_applyResults rs NewAggregatedMetrics
  have h4 := TotalLatency_applyResults rs NewAggregatedMetrics
  rw [wrap64_of_inInt64 r1] at h1
  rw [wrap64_of_inInt64 r3] at h2
  rw [wrap64_of_inInt64 r2] at h3
  rw [wrap64_of_inInt64 r4] at h4
  have e1 : NewAggregatedMetrics.TotalChecks = 0 := rfl
  have e2 : NewAggregatedMetrics.FailedPings = 0 := rfl
  have e3 : NewAggregatedMetrics.SuccessfulPings = 0 := rfl
  have e4 : NewAggregatedMetrics.TotalLatency = 0 := rfl
  rw [e1, zero_add] at h1
  rw [e2, zero_add] at h2
  rw [e3, zero_add] at h3
  rw [e4, zero_add] at h4
  refine ⟨?_, ?_, ?_, h4⟩
  · rw [h1]; apply wrap64_of_inInt64; unfold InInt64; omega
  · rw [h2]; apply wrap64_of_inInt64; unfold InInt64; omega
  · rw [h3]; apply wrap64_of_inInt64; unfold InInt64; omega

theorem successLatencySum_nonneg (rs : List HealthCheckResult)
    (h : ∀ r ∈ rs, r.Error = none → 0 ≤ r.Latency) : 0 ≤ successLatencySum rs := by
  induction rs with
  | nil => simp [successLatencySum]
  | cons r rs ih =>
    have ih2 := ih (fun x hx => h x (List.mem_cons_of_mem _ hx))
    have hr := h r (List.mem_cons_self _ _)
    unfold successLatencySum at *
    by_cases he : r.Error = none
    · have := hr he
      simp only [List.filter_cons, he, decide_True, if_true, List.map_cons, List.sum_cons]
      omega
    · simpa [List.filter_cons, he] using ih2

theorem AverageLatency_eq (a : AggregatedMetrics) (hS : 0 < a.SuccessfulPings)
    (hT : InInt64 a.TotalLatency) :
    (CalculateAverageLatency a).AverageLatency = Int.tdiv a.TotalLatency a.SuccessfulPings := by
  have hq := tdiv_inInt64 hT hS
  unfold CalculateAverageLatency div64 mul64
  simp only [gt_iff_lt, hS, if_true, mul_one]
  rw [wrap64_of_inInt64 hq, wrap64_of_inInt64 hq]

theorem AverageLatency_zero (a : AggregatedMetrics) (hS : ¬ 0 < a.SuccessfulPings) :
    (CalculateAverageLatency a).AverageLatency = 0 := by
  unfold CalculateAverageLatency
  simp only [gt_iff_lt, hS, if_false]

theorem CalculateAverageLatency_counters (a : AggregatedMetrics) :
    (CalculateAverageLatency a).TotalChecks = a.TotalChecks ∧
    (CalculateAverageLatency a).SuccessfulPings = a.SuccessfulPings ∧
    (CalculateAverageLatency a).FailedPings = a.FailedPings ∧
    (CalculateAverageLatency a).TotalLatency = a.TotalLatency ∧
    (CalculateAverageLatency a).ServiceStatus = a.ServiceStatus := by
  unfold CalculateAverageLatency
  by_cases h : a.SuccessfulPings > 0 <;> simp [h]


/-! ## Claims about the aggregator -/

/-- C1: for a sequence of `N` results (`N` within the `int64` range of the
counters) applied one after another with `AddResult` to a fresh
`NewAggregatedMetrics`, of which `F` have a non-nil `Error`, afterwards
`TotalChecks = N`, `FailedPings = F` and `SuccessfulPings = N - F`. -/
theorem AddResult_counts (rs : List HealthCheckResult)
    (hN : (rs.length : Int) < 9223372036854775808) :
    (applyResults NewAggregatedMetrics rs).TotalChecks = rs.length ∧
    (applyResults NewAggregatedMetrics rs).FailedPings = failures rs ∧
    (applyResults NewAggregatedMetrics rs).SuccessfulPings
      = (rs.length : Int) - failures rs := by
  obtain ⟨h1, h2, h3, _⟩ := fresh_fields rs hN
  exact ⟨h1, h2, h3⟩

/-- Witness of C1: three results, one of them failing. -/
theorem AddResult_counts_witness :
    (applyResults NewAggregatedMetrics
        [⟨"a", 200, 5, none⟩, ⟨"b", 0, 0, some "timeout"⟩, ⟨"a", 500, 8, none⟩]).TotalChecks = 3 ∧
    (applyResults NewAggregatedMetrics
        [⟨"a", 200, 5, none⟩, ⟨"b", 0, 0, some "timeout"⟩, ⟨"a", 500, 8, none⟩]).FailedPings = 1 ∧
    (applyResults NewAggregatedMetrics
        [⟨"a", 200, 5, none⟩, ⟨"b", 0, 0, some "timeout"⟩, ⟨"a", 500, 8, none⟩]).SuccessfulPings
      = 2 := by
  have h := AddResult_counts
    [⟨"a", 200, 5, none⟩, ⟨"b", 0, 0, some "timeout"⟩, ⟨"a", 500, 8, none⟩] (by decide)
  refine ⟨h.1, ?_, ?_⟩
  · rw [h.2.1]; decide
  · rw [h.2.2]; decide

/-- C2 as stated fails: two successful results with latencies `-1ns` and
`0ns` give `TotalLatency = -1` and `SuccessfulPings = 2`; Go's `/` truncates
toward zero, so `AverageLatency` is `0` while the floor of `-1/2` is `-1`. -/
theorem AverageLatency_not_floor :
    0 < (CalculateAverageLatency (applyResults NewAggregatedMetrics
          [⟨"a", 200, -1, none⟩, ⟨"b", 200, 0, none⟩])).SuccessfulPings ∧
    (CalculateAverageLatency (applyResults NewAggregatedMetrics
          [⟨"a", 200, -1, none⟩, ⟨"b", 200, 0, none⟩])).AverageLatency = 0 ∧
    Int.fdiv (successLatencySum [⟨"a", 200, -1, none⟩, ⟨"b", 200, 0, none⟩])
        (CalculateAverageLatency (applyResults NewAggregatedMetrics
          [⟨"a", 200, -1, none⟩, ⟨"b", 200, 0, none⟩])).SuccessfulPings = -1 ∧
    (CalculateAverageLatency (applyResults NewAggregatedMetrics
          [⟨"a", 200, -1, none⟩, ⟨"b", 200, 0, none⟩])).AverageLatency
      ≠ Int.fdiv (successLatencySum [⟨"a", 200, -1, none⟩, ⟨"b", 200, 0, none⟩])
          (CalculateAverageLatency (applyResults NewAggregatedMetrics
            [⟨"a", 200, -1, none⟩, ⟨"b", 200, 0, none⟩])).SuccessfulPings := by
  decide

/-- C2, amended: for a sequence of fewer than `2^63` results applied to a
fresh aggregator and followed by one `CalculateAverageLatency`,
`SuccessfulPings` is the number of results with nil `Error`; `AverageLatency`
is `0` when it is `0`; otherwise `AverageLatency` is the `int64` sum of the
successful latencies divided by `SuccessfulPings` with the quotient truncated
toward zero, and that is the floor of (sum / `SuccessfulPings`) whenever every
successful latency is non-negative and their sum is below `2^63`. -/
theorem AverageLatency_truncated (rs : List HealthCheckResult)
    (hN : (rs.length : Int) < 9223372036854775808) :
    (CalculateAverageLatency (applyResults NewAggregatedMetrics rs)).SuccessfulPings
      = (rs.length : Int) - failures rs ∧
    ((CalculateAverageLatency (applyResults NewAggregatedMetrics rs)).SuccessfulPings = 0 →
      (CalculateAverageLatency (applyResults NewAggregatedMetrics rs)).AverageLatency = 0) ∧
    (0 < (CalculateAverageLatency (applyResults NewAggregatedMetrics rs)).SuccessfulPings →
      (CalculateAverageLatency (applyResults NewAggregatedMetrics rs)).AverageLatency
        = Int.tdiv (wrap64 (successLatencySum rs))
            (CalculateAverageLatency (applyResults NewAggregatedMetrics rs)).SuccessfulPings) ∧
    (0 < (CalculateAverageLatency (applyResults NewAggregatedMetrics rs)).SuccessfulPings →
      (∀ r ∈ rs, r.Error = none → 0 ≤ r.Latency) →
      successLatencySum rs < 9223372036854775808 →
      (CalculateAverageLatency (applyResults NewAggregatedMetrics rs)).AverageLatency
        = Int.fdiv (successLatencySum rs)
            (CalculateAverageLatency (applyResults NewAggregatedMetrics rs)).SuccessfulPings) := by
  obtain ⟨_, _, h3, h4⟩ := fresh_fields rs hN
  obtain ⟨_, c2, _, _, _⟩ := CalculateAverageLatency_counters (applyResults NewAggregatedMetrics rs)
  have hT : InInt64 (applyResults NewAggregatedMetrics rs).TotalLatency := by
    rw [h4]; exact wrap64_inInt64 _
  refine ⟨by rw [c2, h3], ?_, ?_, ?_⟩
  · intro h0
    apply AverageLatency_zero
    rw [c2] at h0; omega
  · intro hpos
    rw [c2] at hpos ⊢
    rw [AverageLatency_eq _ hpos hT, h4]
  · intro hpos hlat hsum
    rw [c2] at hpos ⊢
    have h0 := successLatencySum_nonneg rs hlat
    have hw : wrap64 (successLatencySum rs) = successLatencySum rs :=
      wrap64_of_inInt64 ⟨by omega, hsum⟩
    rw [AverageLatency_eq _ hpos hT, h4, hw, Int.tdiv_eq_ediv h0 (le_of_lt hpos),
      Int.fdiv_eq_ediv _ (le_of_lt hpos)]

/-- Witness of the amended C2: latencies 5ns and 8ns average to 6ns. -/
theorem AverageLatency_truncated_witness :
    (CalculateAverageLatency (applyResults NewAggregatedMetrics
        [⟨"a", 200, 5, none⟩, ⟨"b", 0, 0, some "timeout"⟩, ⟨"c", 500, 8, none⟩])).AverageLatency
      = 6 := by
  have h := (AverageLatency_truncated
    [⟨"a", 200, 5, none⟩, ⟨"b", 0, 0, some "timeout"⟩, ⟨"c", 500, 8, none⟩] (by decide)).2.2.2
    (by decide) (by decide) (by decide)
  rw [h]; decide

/-- C3: after a sequence of results applied with `AddResult` to a fresh
aggregator, `ServiceStatus` has no entry for a URL `u` that no result
carries; otherwise the entry of `u` is the one written by the last result
`r` with `r.URL = u`: `DOWN` with latency 0 if `r.Error` is non-nil, `UP` with
`r.Latency` if it is nil, whatever the results before it and whatever the
results for other URLs after it. -/
theorem ServiceStatus_last_write_wins (rs : List HealthCheckResult) (u : String) :
    ((∀ r ∈ rs, r.URL ≠ u) →
      (applyResults NewAggregatedMetrics rs).ServiceStatus.Load u = none) ∧
    (∀ (before after : List HealthCheckResult) (r : HealthCheckResult),
      rs = before ++ r :: after → r.URL = u → (∀ x ∈ after, x.URL ≠ u) →
      (applyResults NewAggregatedMetrics rs).ServiceStatus.Load u
        = some (if r.Error ≠ none then { Status := "DOWN", Latency := 0 }
                else { Status := "UP", Latency := r.Latency })) := by
  constructor
  · intro h
    rw [Load_applyResults_of_absent u rs _ h]; rfl
  · intro before after r hrs hu hafter
    subst hrs
    rw [applyResults_append, applyResults_cons, Load_applyResults_of_absent u after _ hafter,
      Load_AddResult]
    simp only [hu, if_true]

/-- Witness of C3: `a` succeeds, `b` fails, `a` fails, `b` succeeds with 9ns;
the entry of `a` is the one of its last result, and `c` has no entry. -/
theorem ServiceStatus_last_write_wins_witness :
    (applyResults NewAggregatedMetrics
        [⟨"a", 200, 5, none⟩, ⟨"b", 0, 0, some "timeout"⟩, ⟨"a", 0, 0, some "refused"⟩,
         ⟨"b", 200, 9, none⟩]).ServiceStatus.Load "a" = some { Status := "DOWN", Latency := 0 } ∧
    (applyResults NewAggregatedMetrics
        [⟨"a", 200, 5, none⟩, ⟨"b", 0, 0, some "timeout"⟩, ⟨"a", 0, 0, some "refused"⟩,
         ⟨"b", 200, 9, none⟩]).ServiceStatus.Load "c" = none := by
  constructor
  · exact (ServiceStatus_last_write_wins _ "a").2
      [⟨"a", 200, 5, none⟩, ⟨"b", 0, 0, some "timeout"⟩] [⟨"b", 200, 9, none⟩]
      ⟨"a", 0, 0, some "refused"⟩ rfl rfl (by decide)
  · exact (ServiceStatus_last_write_wins _ "c").1 (by decide)


/-- C4: `TotalChecks == SuccessfulPings + FailedPings` is an invariant of the
aggregator state. It holds for `NewAggregatedMetrics`; from every state
satisfying it, it holds again after `AddResult` of any result and after
`CalculateAverageLatency`. The equality is the one of Go's `int64` arithmetic
(`CountInvariant`), and it is the equality of the integers themselves as long
as no counter leaves the `int64` range (`TotalChecks < 2^63 - 1` before the
call, counters non-negative). -/
theorem CountInvariant_preserved :
    CountInvariant NewAggregatedMetrics ∧
    NewAggregatedMetrics.TotalChecks
      = NewAggregatedMetrics.SuccessfulPings + NewAggregatedMetrics.FailedPings ∧
    (∀ (a : AggregatedMetrics) (r : HealthCheckResult), CountInvariant a →
      CountInvariant (AddResult a r) ∧ CountInvariant (CalculateAverageLatency a)) ∧
    (∀ (a : AggregatedMetrics) (r : HealthCheckResult),
      a.TotalChecks = a.SuccessfulPings + a.FailedPings →
      0 ≤ a.SuccessfulPings → 0 ≤ a.FailedPings → a.TotalChecks < 9223372036854775807 →
      (AddResult a r).TotalChecks = (AddResult a r).SuccessfulPings + (AddResult a r).FailedPings ∧
      (CalculateAverageLatency a).TotalChecks
        = (CalculateAverageLatency a).SuccessfulPings + (CalculateAverageLatency a).FailedPings) := by
  refine ⟨by decide, by decide, ?_, ?_⟩
  · intro a r h
    unfold CountInvariant at *
    constructor
    · unfold AddResult add64 at *
      by_cases he : r.Error = none
      · simp only [he, ne_eq, not_true_eq_false, if_false]
        rw [h, wrap64_wrap64_add, wrap64_wrap64_add]; congr 1; ring
      · simp only [he, ne_eq, not_false_eq_true, if_true]
        rw [h, wrap64_wrap64_add, wrap64_add_wrap64]; congr 1; ring
    · obtain ⟨c1, c2, c3, _, _⟩ := CalculateAverageLatency_counters a
      rw [c1, c2, c3]; exact h
  · intro a r h hs hf hlt
    constructor
    · unfold AddResult add64 wrap64
      by_cases he : r.Error = none
      · simp only [he, ne_eq, not_true_eq_false, if_false]; omega
      · simp only [he, ne_eq, not_false_eq_true, if_true]; omega
    · obtain ⟨c1, c2, c3, _, _⟩ := CalculateAverageLatency_counters a
      rw [c1, c2, c3]; exact h

/-- Witness of C4: the state after one success and one failure satisfies the
invariant, and so do its successors. -/
theorem CountInvariant_preserved_witness :
    CountInvariant (applyResults NewAggregatedMetrics [⟨"a", 200, 5, none⟩, ⟨"b", 0, 0, some "e"⟩]) ∧
    CountInvariant (AddResult
      (applyResults NewAggregatedMetrics [⟨"a", 200, 5, none⟩, ⟨"b", 0, 0, some "e"⟩])
      ⟨"c", 500, 7, none⟩) ∧
    CountInvariant (CalculateAverageLatency
      (applyResults NewAggregatedMetrics [⟨"a", 200, 5, none⟩, ⟨"b", 0, 0, some "e"⟩])) :=
  ⟨by decide,
   (CountInvariant_preserved.2.2.1
      (applyResults NewAggregatedMetrics [⟨"a", 200, 5, none⟩, ⟨"b", 0, 0, some "e"⟩])
      ⟨"c", 500, 7, none⟩ (by decide)).1,
   (CountInvariant_preserved.2.2.1
      (applyResults NewAggregatedMetrics [⟨"a", 200, 5, none⟩, ⟨"b", 0, 0, some "e"⟩])
      ⟨"c", 500, 7, none⟩ (by decide)).2⟩

/-- C5: aggregation does not depend on the HTTP status code. Two results that
differ only in `StatusCode` take every aggregator state to the same state; a
result with nil `Error`, whatever its `StatusCode`, increments
`SuccessfulPings`, leaves `FailedPings` alone and is recorded as `UP` with its
latency; and recording A = (200, latency `la` > 0, no error), B = (error),
C = (500, latency `lc` > 0, no error) for three distinct endpoints on a fresh
aggregator gives `TotalChecks = 3`, `SuccessfulPings = 2`, `FailedPings = 1`,
A `UP` with `la`, B `DOWN` with 0, C `UP` with `lc`. -/
theorem AddResult_ignores_StatusCode :
    (∀ (a : AggregatedMetrics) (r1 r2 : HealthCheckResult),
      r1.URL = r2.URL → r1.Latency = r2.Latency → r1.Error = r2.Error →
      AddResult a r1 = AddResult a r2) ∧
    (∀ (a : AggregatedMetrics) (r : HealthCheckResult), r.Error = none →
      (AddResult a r).SuccessfulPings = add64 a.SuccessfulPings 1 ∧
      (AddResult a r).FailedPings = a.FailedPings ∧
      (AddResult a r).ServiceStatus.Load r.URL = some { Status := "UP", Latency := r.Latency }) ∧
    (∀ (A B C : String) (la lc : Int) (codeB latB : Int) (errB : String),
      A ≠ B → A ≠ C → B ≠ C → 0 < la → 0 < lc →
      (applyResults NewAggregatedMetrics
        [⟨A, 200, la, none⟩, ⟨B, codeB, latB, some errB⟩, ⟨C, 500, lc, none⟩]).TotalChecks = 3 ∧
      (applyResults NewAggregatedMetrics
        [⟨A, 200, la, none⟩, ⟨B, codeB, latB, some errB⟩, ⟨C, 500, lc, none⟩]).SuccessfulPings = 2 ∧
      (applyResults NewAggregatedMetrics
        [⟨A, 200, la, none⟩, ⟨B, codeB, latB, some errB⟩, ⟨C, 500, lc, none⟩]).FailedPings = 1 ∧
      (applyResults NewAggregatedMetrics
        [⟨A, 200, la, none⟩, ⟨B, codeB, latB, some errB⟩, ⟨C, 500, lc, none⟩]).ServiceStatus.Load A
          = some { Status := "UP", Latency := la } ∧
      (applyResults NewAggregatedMetrics
        [⟨A, 200, la, none⟩, ⟨B, codeB, latB, some errB⟩, ⟨C, 500, lc, none⟩]).ServiceStatus.Load B
          = some { Status := "DOWN", Latency := 0 } ∧
      (applyResults NewAggregatedMetrics
        [⟨A, 200, la, none⟩, ⟨B, codeB, latB, some errB⟩, ⟨C, 500, lc, none⟩]).ServiceStatus.Load C
          = some { Status := "UP", Latency := lc }) := by
  refine ⟨?_, ?_, ?_⟩
  · intro a r1 r2 hu hl he
    unfold AddResult
    rw [hu, hl, he]
  · intro a r he
    refine ⟨?_, ?_, ?_⟩
    · unfold AddResult; simp [he]
    · unfold AddResult; simp [he]
    · rw [Load_AddResult]; simp [he]
  · intro A B C la lc codeB latB errB hAB hAC hBC _ _
    have hBA : B ≠ A := Ne.symm hAB
    have hCA : C ≠ A := Ne.symm hAC
    have hCB : C ≠ B := Ne.symm hBC
    have hN : (([⟨A, 200, la, none⟩, ⟨B, codeB, latB, some errB⟩, ⟨C, 500, lc, none⟩] :
        List HealthCheckResult).length : Int) < 9223372036854775808 := by
      simp only [List.length_cons, List.length_nil]; decide
    obtain ⟨h1, h2, h3, _⟩ := fresh_fields _ hN
    refine ⟨h1, ?_, ?_, ?_, ?_, ?_⟩
    · rw [h3]; simp [failures]
    · rw [h2]; simp [failures]
    · simp [applyResults, Load_AddResult, hBA, hCA]
    · simp [applyResults, Load_AddResult, hCB]
    · simp [applyResults, Load_AddResult]

/-- Witness of C5: endpoints `A`, `B`, `C` with latencies 12ns and 34ns. -/
theorem AddResult_ignores_StatusCode_witness :
    (applyResults NewAggregatedMetrics
        [⟨"A", 200, 12, none⟩, ⟨"B", 0, 0, some "timeout"⟩, ⟨"C", 500, 34, none⟩]).SuccessfulPings = 2 ∧
    (applyResults NewAggregatedMetrics
        [⟨"A", 200, 12, none⟩, ⟨"B", 0, 0, some "timeout"⟩, ⟨"C", 500, 34, none⟩]).ServiceStatus.Load "C"
          = some { Status := "UP", Latency := 34 } ∧
    AddResult NewAggregatedMetrics ⟨"C", 500, 34, none⟩
      = AddResult NewAggregatedMetrics ⟨"C", 200, 34, none⟩ :=
  ⟨(AddResult_ignores_StatusCode.2.2 "A" "B" "C" 12 34 0 0 "timeout"
      (by decide) (by decide) (by decide) (by decide) (by decide)).2.1,
   (AddResult_ignores_StatusCode.2.2 "A" "B" "C" 12 34 0 0 "timeout"
      (by decide) (by decide) (by decide) (by decide) (by decide)).2.2.2.2.2,
   AddResult_ignores_StatusCode.1 NewAggregatedMetrics ⟨"C", 500, 34, none⟩ ⟨"C", 200, 34, none⟩
      rfl rfl rfl⟩


/-! ## Claims about the prober and the worker -/

/-- C6: for every URL and every outcome of the request construction and of
the client call, `Ping` returns a result whose `URL` is the input URL and
whose `Error` is non-nil exactly when the construction failed or the client
call returned an error; a result with an error has `StatusCode = 0` and
`Latency = 0`; a result without one has the status code of the response,
whatever its value, and as `Latency` the value of `time.Since(start)` read
when the client call has returned, `start` being the clock at the start of
`Ping`. -/
theorem Ping_result {σ : Type} (env : ProbeEnv σ) (c : Checker) (ctx : Int) (url : String)
    (w : σ) :
    (Ping env c ctx url w).1.URL = url ∧
    ((Ping env c ctx url w).1.Error ≠ none ↔
      (env.newRequestWithContext ctx url ≠ none ∨
        ∃ err, (env.clientDo c ctx url w).1 = Except.error err)) ∧
    ((Ping env c ctx url w).1.Error ≠ none →
      (Ping env c ctx url w).1.StatusCode = 0 ∧ (Ping env c ctx url w).1.Latency = 0) ∧
    ((Ping env c ctx url w).1.Error = none →
      ∃ resp, env.newRequestWithContext ctx url = none ∧
        (env.clientDo c ctx url w).1 = Except.ok resp ∧
        (Ping env c ctx url w).1.StatusCode = resp.StatusCode ∧
        (Ping env c ctx url w).1.Latency
          = env.since (env.clientDo c ctx url w).2 (env.now w)) := by
  unfold Ping
  cases hreq : env.newRequestWithContext ctx url with
  | some err => simp
  | none =>
    rcases hdo : env.clientDo c ctx url w with ⟨resp, w1⟩
    cases resp with
    | error err => simp
    | ok resp => simp

/-- Witness of C6: in the scenario network the probe of `C` at clock 100
succeeds with status code 500 and a latency of 7000ns, and the probe of `B`
fails with status code 0 and latency 0. -/
theorem Ping_result_witness :
    (∃ resp, scenarioEnv.newRequestWithContext 500000000 "C" = none ∧
      (scenarioEnv.clientDo (NewChecker 500000000) 500000000 "C" 100).1 = Except.ok resp ∧
      (Ping scenarioEnv (NewChecker 500000000) 500000000 "C" 100).1.StatusCode = resp.StatusCode ∧
      (Ping scenarioEnv (NewChecker 500000000) 500000000 "C" 100).1.Latency
        = scenarioEnv.since (scenarioEnv.clientDo (NewChecker 500000000) 500000000 "C" 100).2
            (scenarioEnv.now 100)) ∧
    ((Ping scenarioEnv (NewChecker 500000000) 500000000 "B" 100).1.StatusCode = 0 ∧
      (Ping scenarioEnv (NewChecker 500000000) 500000000 "B" 100).1.Latency = 0) ∧
    (Ping scenarioEnv (NewChecker 500000000) 500000000 "C" 100).1
      = { URL := "C", StatusCode := 500, Latency := 7000, Error := none } :=
  ⟨(Ping_result scenarioEnv (NewChecker 500000000) 500000000 "C" 100).2.2.2 (by decide),
   (Ping_result scenarioEnv (NewChecker 500000000) 500000000 "B" 100).2.2.1 (by decide),
   by decide⟩

theorem Ping_url {σ : Type} (env : ProbeEnv σ) (c : Checker) (ctx : Int) (url : String)
    (w : σ) : (Ping env c ctx url w).1.URL = url := by
  unfold Ping
  cases hreq : env.newRequestWithContext ctx url with
  | some err => simp
  | none =>
    rcases hdo : env.clientDo c ctx url w with ⟨resp, w1⟩
    cases resp <;> simp

theorem pingInOrder_cons {σ : Type} (env : ProbeEnv σ) (checker : Checker) (url : String)
    (urls : List String) (w : σ) :
    pingInOrder env checker (url :: urls) w
      = ((Ping env checker checker.Timeout url w).1 ::
          (pingInOrder env checker urls (Ping env checker checker.Timeout url w).2).1,
         (pingInOrder env checker urls (Ping env checker checker.Timeout url w).2).2) := by
  rw [pingInOrder]

theorem pingInOrder_nil {σ : Type} (env : ProbeEnv σ) (checker : Checker) (w : σ) :
    pingInOrder env checker [] w = ([], w) := by
  rw [pingInOrder]

theorem pingInOrder_snoc {σ : Type} (env : ProbeEnv σ) (checker : Checker)
    (urls : List String) (url : String) (w : σ) :
    pingInOrder env checker (urls ++ [url]) w
      = ((pingInOrder env checker urls w).1 ++
          [(Ping env checker checker.Timeout url (pingInOrder env checker urls w).2).1],
         (Ping env checker checker.Timeout url (pingInOrder env checker urls w).2).2) := by
  induction urls generalizing w with
  | nil => simp [pingInOrder_cons, pingInOrder_nil]
  | cons u us ih => simp [pingInOrder_cons, ih]

theorem pingInOrder_get? {σ : Type} (env : ProbeEnv σ) (checker : Checker)
    (urls : List String) (w : σ) (i : Nat) (h : i < urls.length) :
    (pingInOrder env checker urls w).1.get? i
      = some (Ping env checker checker.Timeout (urls.get ⟨i, h⟩)
          (pingInOrder env checker (urls.take i) w).2).1 := by
  induction urls generalizing w i with
  | nil => simp at h
  | cons url urls ih =>
    rw [pingInOrder_cons]
    cases i with
    | zero => simp [pingInOrder]
    | succ i =>
      have h2 : i < urls.length := by simpa using h
      simp only [List.get?_cons_succ, List.take_succ_cons, List.get_cons_succ]
      rw [ih _ i h2, pingInOrder_cons]

theorem pingInOrder_length {σ : Type} (env : ProbeEnv σ) (checker : Checker)
    (urls : List String) (w : σ) : (pingInOrder env checker urls w).1.length = urls.length := by
  induction urls generalizing w with
  | nil => simp [pingInOrder]
  | cons url urls ih => rw [pingInOrder_cons]; simp [ih]

theorem pingInOrder_map_URL {σ : Type} (env : ProbeEnv σ) (checker : Checker)
    (urls : List String) (w : σ) :
    (pingInOrder env checker urls w).1.map (fun r => r.URL) = urls := by
  induction urls generalizing w with
  | nil => simp [pingInOrder]
  | cons url urls ih =>
    rw [pingInOrder_cons]
    simp only [List.map_cons, ih]
    rw [Ping_url env checker checker.Timeout url w]

theorem PoolInv_init {σ : Type} (env : ProbeEnv σ) (checker : Checker)
    (endpoints : List String) (w0 : σ) :
    PoolInv env checker endpoints w0 (PoolState.init endpoints w0) := by
  unfold PoolInv PoolState.init PoolState.sent WorkerPC.held
  simp [pingInOrder_nil]

theorem WorkerPool_decreases {σ : Type} (env : ProbeEnv σ) (checker : Checker)
    (jobsCap resultsCap : Nat) (receiver : Bool) (s s1 : PoolState σ) (e : PoolEvent)
    (hstep : WorkerPool env checker jobsCap resultsCap receiver s e = some s1) :
    poolMeasure s1 < poolMeasure s := by
  cases e <;> simp only [WorkerPool] at hstep
  all_goals (repeat' split at hstep)
  all_goals (try (simp at hstep; done))
  all_goals (simp only [Option.some.injEq] at hstep; subst hstep)
  all_goals (unfold poolMeasure; simp_all; try omega)

theorem sent_snoc {σ : Type} (env : ProbeEnv σ) (checker : Checker) (w0 : σ)
    (xs : List HealthCheckResult) (r : HealthCheckResult)
    (hxs : xs = (pingInOrder env checker (xs.map (fun r => r.URL)) w0).1)
    (hr : r = (Ping env checker checker.Timeout r.URL
        (pingInOrder env checker (xs.map (fun r => r.URL)) w0).2).1) :
    xs ++ [r] = (pingInOrder env checker ((xs ++ [r]).map (fun r => r.URL)) w0).1 ∧
    (Ping env checker checker.Timeout r.URL
        (pingInOrder env checker (xs.map (fun r => r.URL)) w0).2).2
      = (pingInOrder env checker ((xs ++ [r]).map (fun r => r.URL)) w0).2 := by
  rw [List.map_append, List.map_singleton, pingInOrder_snoc]
  exact ⟨by rw [← hr, ← hxs], rfl⟩

theorem WorkerPool_preserves_PoolInv {σ : Type} (env : ProbeEnv σ) (checker : Checker)
    (jobsCap resultsCap : Nat) (receiver : Bool) (endpoints : List String) (w0 : σ)
    (s s1 : PoolState σ) (e : PoolEvent) (hinv : PoolInv env checker endpoints w0 s)
    (hstep : WorkerPool env checker jobsCap resultsCap receiver s e = some s1) :
    PoolInv env checker endpoints w0 s1 := by
  rcases s with ⟨world, pending, jobs, closed, pc, results, taken⟩
  unfold PoolInv at hinv
  simp only [PoolState.sent] at hinv
  obtain ⟨h1, h2, h3, h4, h5⟩ := hinv
  cases e <;> simp only [WorkerPool] at hstep
  all_goals (repeat' split at hstep)
  all_goals (try (simp at hstep; done))
  all_goals (simp only [Option.some.injEq] at hstep; subst hstep)
  all_goals (unfold PoolInv; simp only [PoolState.sent])
  all_goals (try subst_vars)
  all_goals (simp only [WorkerPC.held] at *)
  all_goals (refine ⟨?_, ?_, ?_, ?_, ?_⟩)
  all_goals (try assumption)
  all_goals (try (simp [List.append_assoc, Ping_url]; done))
  all_goals (try (intro hc; simp_all))
  all_goals (try (simp only [List.append_assoc, List.singleton_append]; assumption))
  all_goals (try simp only [List.append_nil] at *)
  all_goals (try rw [← List.append_assoc])
  all_goals first
    | exact (sent_snoc env checker w0 _ _ h2 h3.1).1
    | (rw [h3.2]; exact (sent_snoc env checker w0 _ _ h2 h3.1).2)

theorem runPool_preserves_PoolInv {σ : Type} (env : ProbeEnv σ) (checker : Checker)
    (jobsCap resultsCap : Nat) (receiver : Bool) (endpoints : List String) (w0 : σ)
    (evs : List PoolEvent) (s s1 : PoolState σ) (hinv : PoolInv env checker endpoints w0 s)
    (hrun : runPool env checker jobsCap resultsCap receiver s evs = some s1) :
    PoolInv env checker endpoints w0 s1 ∧ evs.length + poolMeasure s1 ≤ poolMeasure s := by
  induction evs generalizing s with
  | nil =>
    simp only [runPool, Option.some.injEq] at hrun
    rw [← hrun]; exact ⟨hinv, by simp⟩
  | cons e es ih =>
    simp only [runPool] at hrun
    cases hstep : WorkerPool env checker jobsCap resultsCap receiver s e with
    | none => rw [hstep] at hrun; simp at hrun
    | some s2 =>
      rw [hstep] at hrun
      have hd := WorkerPool_decreases env checker jobsCap resultsCap receiver s s2 e hstep
      obtain ⟨h1, h2⟩ := ih s2
        (WorkerPool_preserves_PoolInv env checker jobsCap resultsCap receiver endpoints w0
          s s2 e hinv hstep) hrun
      refine ⟨h1, ?_⟩
      simp only [List.length_cons]
      omega

theorem WorkerPool_stuck_with_receiver {σ : Type} (env : ProbeEnv σ) (checker : Checker)
    (jobsCap resultsCap : Nat) (endpoints : List String) (w0 : σ) (s : PoolState σ)
    (hinv : PoolInv env checker endpoints w0 s)
    (hstuck : ∀ e, WorkerPool env checker jobsCap resultsCap true s e = none) :
    s.pc = WorkerPC.returned ∧ s.results = [] ∧ s.jobs = [] ∧ s.pending = [] := by
  rcases s with ⟨world, pending, jobs, closed, pc, results, taken⟩
  obtain ⟨_, _, _, h4, h5⟩ := hinv
  simp only at h4 h5 ⊢
  cases pc with
  | receiving =>
    exfalso
    cases jobs with
    | cons url rest => simpa [WorkerPool] using hstuck PoolEvent.recv
    | nil =>
      cases closed with
      | true => simpa [WorkerPool] using hstuck PoolEvent.ret
      | false =>
        cases pending with
        | nil => simpa [WorkerPool] using hstuck PoolEvent.closeJobs
        | cons url rest => simpa [WorkerPool] using hstuck PoolEvent.produceDirect
  | probing url =>
    exfalso
    simpa [WorkerPool] using hstuck PoolEvent.ping
  | sending result =>
    exfalso
    cases results with
    | nil => simpa [WorkerPool] using hstuck PoolEvent.sendDirect
    | cons r rest => simpa [WorkerPool] using hstuck PoolEvent.take
  | returned =>
    obtain ⟨hj, hc⟩ := h5 rfl
    refine ⟨rfl, ?_, hj, h4 hc⟩
    cases results with
    | nil => rfl
    | cons r rest =>
      exfalso
      simpa [WorkerPool] using hstuck PoolEvent.take

/-- C10 as stated fails: `WorkerPool` does not end when nothing receives from
`results`. With channels of capacity 2, the endpoints `A`, `B`, `C` delivered
and `jobs` closed, and no receiver, the worker sends the results of `A` and
`B`, probes `C` and then blocks at `results <- result` (line 78): it holds the
result of `C`, has sent two results, has not returned, and no step of the
worker or the producer can occur. -/
theorem WorkerPool_blocks_without_receiver :
    runPool scenarioEnv scenarioChecker 2 2 false (PoolState.init ["A", "B", "C"] 0)
      blockedSchedule = some blockedState ∧
    blockedState.pc = WorkerPC.sending ⟨"C", 500, 7000, none⟩ ∧
    blockedState.sent.length = 2 ∧
    blockedState.jobsClosed = true ∧ blockedState.pending = [] ∧
    (∀ e, WorkerPool scenarioEnv scenarioChecker 2 2 false blockedState e = none) :=
  ⟨by decide, by decide, by decide, by decide, by decide, fun e => by cases e <;> rfl⟩

/-- C10, amended: for every list of endpoints delivered to one worker
through a job queue that is then closed, every capacity of the two channels
and every behaviour of the network, in every execution of `WorkerPool` the
results sent so far are, in order, the results `Ping` returns for the first
endpoints of the list, one per endpoint, none skipped or repeated, each with
the URL of its endpoint, whether or not earlier probes failed; once the
worker has returned they are the results for the whole list. Every execution
has at most `7 * n + 2` steps for `n` endpoints, and when the results are
received, an execution that cannot be continued has the worker returned with
one result per endpoint received. -/
theorem WorkerPool_one_result_per_job {σ : Type} (env : ProbeEnv σ) (checker : Checker)
    (jobsCap resultsCap : Nat) (receiver : Bool) (endpoints : List String) (w0 : σ)
    (evs : List PoolEvent) (s : PoolState σ)
    (hrun : runPool env checker jobsCap resultsCap receiver (PoolState.init endpoints w0) evs
      = some s) :
    (∃ rest, endpoints = s.sent.map (fun r => r.URL) ++ rest) ∧
    s.sent = (pingInOrder env checker (s.sent.map (fun r => r.URL)) w0).1 ∧
    (s.pc = WorkerPC.returned →
      s.sent = (pingInOrder env checker endpoints w0).1 ∧
      s.sent.map (fun r => r.URL) = endpoints) ∧
    evs.length ≤ 7 * endpoints.length + 2 ∧
    (receiver = true →
      (∀ e, WorkerPool env checker jobsCap resultsCap receiver s e = none) →
      s.pc = WorkerPC.returned ∧ s.taken = (pingInOrder env checker endpoints w0).1) ∧
    (pingInOrder env checker endpoints w0).1.map (fun r => r.URL) = endpoints ∧
    (∀ (i : Nat) (h : i < endpoints.length),
      (pingInOrder env checker endpoints w0).1.get? i
        = some (Ping env checker checker.Timeout (endpoints.get ⟨i, h⟩)
            (pingInOrder env checker (endpoints.take i) w0).2).1) := by
  obtain ⟨hinv, hlen⟩ := runPool_preserves_PoolInv env checker jobsCap resultsCap receiver
    endpoints w0 evs _ s (PoolInv_init env checker endpoints w0) hrun
  have hinv0 := hinv
  obtain ⟨h1, h2, _, h4, h5⟩ := hinv
  have hret : s.pc = WorkerPC.returned →
      s.sent = (pingInOrder env checker endpoints w0).1 ∧
      s.sent.map (fun r => r.URL) = endpoints := by
    intro hp
    obtain ⟨hj, hc⟩ := h5 hp
    have hurls : s.sent.map (fun r => r.URL) = endpoints := by
      rw [h1, hp, hj, h4 hc]
      simp [WorkerPC.held]
    exact ⟨by rw [← hurls]; exact h2, hurls⟩
  refine ⟨⟨s.pc.held ++ s.jobs ++ s.pending, by rw [h1]; simp [List.append_assoc]⟩, h2, hret,
    ?_, ?_, pingInOrder_map_URL env checker endpoints w0,
    fun i h => pingInOrder_get? env checker endpoints w0 i h⟩
  · have hm : poolMeasure (PoolState.init endpoints w0) = 7 * endpoints.length + 2 := by
      simp [poolMeasure, PoolState.init]
    omega
  · intro hr hstuck
    subst hr
    obtain ⟨hp, hres, _, _⟩ := WorkerPool_stuck_with_receiver env checker jobsCap resultsCap
      endpoints w0 s hinv0 hstuck
    refine ⟨hp, ?_⟩
    have := (hret hp).1
    rw [PoolState.sent, hres, List.append_nil] at this
    exact this

/-- Witness of the amended C10: capacity 2, endpoints `A`, `B`, `C` and a
receiver. The probe of `B` fails and the worker goes on to `C`; after 17
steps nothing more can occur, the worker has returned and the three results
were received in order. -/
theorem WorkerPool_one_result_per_job_witness :
    runPool scenarioEnv scenarioChecker 2 2 true (PoolState.init ["A", "B", "C"] 0)
      (blockedSchedule ++ [PoolEvent.take, PoolEvent.send, PoolEvent.ret, PoolEvent.take,
        PoolEvent.take]) = some completedState ∧
    completedState.pc = WorkerPC.returned ∧
    completedState.taken = (pingInOrder scenarioEnv scenarioChecker ["A", "B", "C"] 0).1 ∧
    completedState.taken
      = [{ URL := "A", StatusCode := 200, Latency := 7000, Error := none },
         { URL := "B", StatusCode := 0, Latency := 0,
           Error := some "failed to ping URL: context deadline exceeded" },
         { URL := "C", StatusCode := 500, Latency := 7000, Error := none }] :=
  ⟨by decide,
   ((WorkerPool_one_result_per_job scenarioEnv scenarioChecker 2 2 true ["A", "B", "C"] 0
      (blockedSchedule ++ [PoolEvent.take, PoolEvent.send, PoolEvent.ret, PoolEvent.take,
        PoolEvent.take]) completedState (by decide)).2.2.2.2.1 rfl
      (fun e => by cases e <;> rfl)).1,
   ((WorkerPool_one_result_per_job scenarioEnv scenarioChecker 2 2 true ["A", "B", "C"] 0
      (blockedSchedule ++ [PoolEvent.take, PoolEvent.send, PoolEvent.ret, PoolEvent.take,
        PoolEvent.take]) completedState (by decide)).2.2.2.2.1 rfl
      (fun e => by cases e <;> rfl)).2,
   by decide⟩

/-! ## Claims about the configuration -/

/-- What `LoadConfiguration` returns as `PingInterval` when the variable
`PING_INTERVAL_MS` is set and parses: the parsed duration, itself already in
nanoseconds, multiplied by `time.Millisecond`. -/
theorem LoadConfiguration_override (env : ConfigEnv) (file contents val : String)
    (fileConfig : Config) (d : Int)
    (hopen : env.osOpen file = Except.ok contents)
    (hdecode : env.decode contents = Except.ok fileConfig)
    (hval : env.lookupEnv "PING_INTERVAL_MS" = some val)
    (hparse : env.parseDuration (val ++ "ms") = some d) :
    ∃ config, LoadConfiguration env file = Except.ok config ∧
      config.PingInterval = mul64 d Millisecond := by
  unfold LoadConfiguration
  simp only [hopen, hdecode, hval, hparse]
  refine ⟨_, rfl, ?_⟩
  repeat' split
  all_goals rfl

/-- What `LoadConfiguration` returns as `PingInterval` when the variable
`PING_INTERVAL_MS` is not set or does not parse: the number of the file
multiplied by `time.Millisecond`. -/
theorem LoadConfiguration_file_value (env : ConfigEnv) (file contents : String)
    (fileConfig : Config)
    (hopen : env.osOpen file = Except.ok contents)
    (hdecode : env.decode contents = Except.ok fileConfig)
    (hval : env.lookupEnv "PING_INTERVAL_MS" = none ∨
      ∃ val, env.lookupEnv "PING_INTERVAL_MS" = some val ∧
        env.parseDuration (val ++ "ms") = none) :
    ∃ config, LoadConfiguration env file = Except.ok config ∧
      config.PingInterval = mul64 fileConfig.PingInterval Millisecond := by
  unfold LoadConfiguration
  rcases hval with h | ⟨val, h1, h2⟩
  · simp only [hopen, hdecode, h]
    refine ⟨_, rfl, ?_⟩
    repeat' split
    all_goals rfl
  · simp only [hopen, hdecode, h1, h2]
    refine ⟨_, rfl, ?_⟩
    repeat' split
    all_goals rfl

/-- C9 at the failing input: the file gives `ping_interval_ms = 1000` and
`request_timeout_ms = 500`. With `PING_INTERVAL_MS=5` the returned
`PingInterval` is 5000000000000ns (5000 seconds) and with
`REQUEST_TIMEOUT_MS=5` the returned `RequestTimeout` is 5000000000000ns,
while a file with the number 5 and no override gives 5000000ns (5
milliseconds); a value that does not parse leaves the file's value. -/
theorem LoadConfiguration_override_scaled_twice :
    LoadConfiguration (sampleConfigEnv ⟨1000, 2, 500, ["A"]⟩ [("PING_INTERVAL_MS", "5")])
        "config.json"
      = Except.ok ⟨5000000000000, 2, 500000000, ["A"]⟩ ∧
    LoadConfiguration (sampleConfigEnv ⟨1000, 2, 500, ["A"]⟩ [("REQUEST_TIMEOUT_MS", "5")])
        "config.json"
      = Except.ok ⟨1000000000, 2, 5000000000000, ["A"]⟩ ∧
    LoadConfiguration (sampleConfigEnv ⟨5, 2, 5, ["A"]⟩ []) "config.json"
      = Except.ok ⟨5000000, 2, 5000000, ["A"]⟩ ∧
    LoadConfiguration (sampleConfigEnv ⟨1000, 2, 500, ["A"]⟩ [("PING_INTERVAL_MS", "soon")])
        "config.json"
      = Except.ok ⟨1000000000, 2, 500000000, ["A"]⟩ := by
  refine ⟨?_, ?_, ?_, ?_⟩ <;> rfl


theorem SingleSignal_blocks_wgWait {σ : Type} (s : Sys σ) (hinv : SingleSignal s)
    (hm : s.mainPC = MainPC.wgWait)
    (hall : (s.workers.all fun w => decide (w = WorkerPC.returned)) = true) : False := by
  obtain ⟨h1, h2, h3, _⟩ := hinv
  obtain ⟨w, hw⟩ := List.exists_mem_of_length_pos h3
  have hwr : w = WorkerPC.returned := by
    have := (List.all_eq_true.mp hall) w hw
    simpa using this
  have hjc : s.jobsClosed = true := by
    cases hc : s.jobsClosed with
    | true => rfl
    | false => exact absurd hwr (h2 hc w hw)
  rw [hm, hjc] at h1
  simp at h1

theorem set_no_returned (ws : List WorkerPC) (i : Nat) (pc : WorkerPC)
    (hpc : pc ≠ WorkerPC.returned) (h : ∀ w ∈ ws, w ≠ WorkerPC.returned) :
    ∀ w ∈ ws.set i pc, w ≠ WorkerPC.returned := by
  intro w hw
  rcases List.mem_or_eq_of_mem_set hw with h1 | h1
  · exact h w h1
  · rw [h1]; exact hpc

theorem step_preserves_SingleSignal {σ : Type} (env : ProbeEnv σ) (config : Config)
    (checker : Checker) (s s1 : Sys σ) (e : Event) (hinv : SingleSignal s)
    (hstep : step env config checker s e = some s1) : SingleSignal s1 := by
  have hinv0 := hinv
  obtain ⟨h1, h2, h3, h4⟩ := hinv
  cases e <;> simp only [step] at hstep
  all_goals (repeat' split at hstep)
  all_goals (try (simp at hstep; done))
  all_goals (simp only [Option.some.injEq] at hstep; subst hstep)
  all_goals (unfold SingleSignal; try dsimp only)
  case mainWaitDone.isTrue hg => exact (SingleSignal_blocks_wgWait s hinv0 hg.1 hg.2).elim
  all_goals (refine ⟨?_, ?_, ?_, ?_⟩)
  all_goals (try (simp_all; done))
  all_goals (try (simp_all; omega))
  all_goals (try (intro hj; exact set_no_returned _ _ _ (by simp) (h2 hj)))
  all_goals (try (split_ifs at h1 ⊢ <;> omega))


/-! ## Claims about the shutdown -/

theorem SingleSignal_init {σ : Type} (config : Config) (w : σ) (hc : 0 < config.Concurrency) :
    SingleSignal (Sys.init config w 1) := by
  unfold SingleSignal Sys.init
  refine ⟨by simp, ?_, ?_, Or.inl rfl⟩
  · intro _ x hx
    rw [List.eq_of_mem_replicate hx]
    simp
  · simp only [List.length_replicate]
    omega

theorem run_preserves_SingleSignal {σ : Type} (env : ProbeEnv σ) (config : Config)
    (checker : Checker) (evs : List Event) (s s1 : Sys σ) (hinv : SingleSignal s)
    (hrun : run env config checker s evs = some s1) : SingleSignal s1 := by
  induction evs generalizing s with
  | nil =>
    simp only [run, Option.some.injEq] at hrun
    rw [← hrun]; exact hinv
  | cons e es ih =>
    simp only [run] at hrun
    cases hstep : step env config checker s e with
    | none => rw [hstep] at hrun; simp at hrun
    | some s2 =>
      rw [hstep] at hrun
      exact ih s2 (step_preserves_SingleSignal env config checker s s2 e hinv hstep) hrun

/-- C7 on the code: in every execution of the running program with at least
one worker and a single shutdown signal, `main` does not return. At every
point the main goroutine is at line 78 or at line 81. If the orchestration
goroutine has received the signal (`jobs` is closed), the main goroutine is
still blocked at `<-shutdownChan` and no signal is left for it. If the main
goroutine has received the signal, `jobs` is not closed and no worker has
returned, so `wg.Wait()` cannot return. -/
theorem main_never_returns_after_one_signal {σ : Type} (env : ProbeEnv σ) (config : Config)
    (checker : Checker) (w : σ) (evs : List Event) (s : Sys σ)
    (hc : 0 < config.Concurrency)
    (hrun : run env config checker (Sys.init config w 1) evs = some s) :
    s.mainPC ≠ MainPC.returned ∧
    (s.jobsClosed = true →
      s.mainPC = MainPC.waitSignal ∧ s.shutdownChan = 0 ∧ s.signalsToCome = 0) ∧
    (s.mainPC ≠ MainPC.waitSignal →
      s.mainPC = MainPC.wgWait ∧ s.jobsClosed = false ∧
      ∀ x ∈ s.workers, x ≠ WorkerPC.returned) := by
  obtain ⟨h1, h2, _, h4⟩ :=
    run_preserves_SingleSignal env config checker evs _ s (SingleSignal_init config w hc) hrun
  refine ⟨?_, ?_, ?_⟩
  · rcases h4 with h | h <;> rw [h] <;> decide
  · intro hj
    rw [hj] at h1
    by_cases hm : s.mainPC = MainPC.waitSignal
    · simp only [hm, if_true] at h1
      exact ⟨hm, by omega, by omega⟩
    · simp only [hm, if_false, if_true] at h1
      omega
  · intro hm
    have hw : s.mainPC = MainPC.wgWait := by
      rcases h4 with h | h
      · exact absurd h hm
      · exact h
    have hj : s.jobsClosed = false := by
      cases hc : s.jobsClosed with
      | false => rfl
      | true =>
        rw [hc] at h1
        simp only [hm, if_false, if_true] at h1
        omega
    exact ⟨hw, hj, h2 hj⟩

/-- Witness of C7 on the code, in the scenario of the claim (two probes in
flight, one job queued, one signal). When the orchestration goroutine takes
the signal, all three results are recorded and the workers return, and
`main` is still blocked at line 78. When the main goroutine takes the
signal, all three results are recorded, `main` is blocked at line 81 and a
further tick is processed. -/
theorem main_never_returns_after_one_signal_witness :
    run scenarioEnv scenarioConfig scenarioChecker (Sys.init scenarioConfig 0 1)
      scenarioSchedule = some scenarioState ∧
    run scenarioEnv scenarioConfig scenarioChecker (Sys.init scenarioConfig 0 1)
      (scenarioSchedule ++ orchestratorFirst) = some drainedState ∧
    drainedState.mainPC ≠ MainPC.returned ∧
    run scenarioEnv scenarioConfig scenarioChecker (Sys.init scenarioConfig 0 1)
      (scenarioSchedule ++ mainFirst) = some tickingState ∧
    tickingState.mainPC ≠ MainPC.returned :=
  ⟨by decide, by decide,
   (main_never_returns_after_one_signal scenarioEnv scenarioConfig scenarioChecker 0
      (scenarioSchedule ++ orchestratorFirst) drainedState (by decide) (by decide)).1,
   by decide,
   (main_never_returns_after_one_signal scenarioEnv scenarioConfig scenarioChecker 0
      (scenarioSchedule ++ mainFirst) tickingState (by decide) (by decide)).1⟩


theorem step_after_orchestrator_returned {σ : Type} (env : ProbeEnv σ) (config : Config)
    (checker : Checker) (s s1 : Sys σ) (e : Event)
    (ho : s.orchestrator = OrchPC.returned ∧ s.jobsClosed = true)
    (hstep : step env config checker s e = some s1) :
    (s1.orchestrator = OrchPC.returned ∧ s1.jobsClosed = true) ∧
      s1.ticksProcessed = s.ticksProcessed := by
  obtain ⟨ho1, ho2⟩ := ho
  cases e <;> simp only [step] at hstep
  all_goals (repeat' split at hstep)
  all_goals (try (simp at hstep; done))
  all_goals (try (simp_all; done))
  all_goals (simp only [Option.some.injEq] at hstep; subst hstep)
  all_goals (simp_all)

theorem run_after_orchestrator_returned {σ : Type} (env : ProbeEnv σ) (config : Config)
    (checker : Checker) (evs : List Event) (s s1 : Sys σ)
    (ho : s.orchestrator = OrchPC.returned ∧ s.jobsClosed = true)
    (hrun : run env config checker s evs = some s1) :
    (s1.orchestrator = OrchPC.returned ∧ s1.jobsClosed = true) ∧
      s1.ticksProcessed = s.ticksProcessed := by
  induction evs generalizing s with
  | nil =>
    simp only [run, Option.some.injEq] at hrun
    rw [← hrun]; exact ⟨ho, rfl⟩
  | cons e es ih =>
    simp only [run] at hrun
    cases hstep : step env config checker s e with
    | none => rw [hstep] at hrun; simp at hrun
    | some s2 =>
      rw [hstep] at hrun
      obtain ⟨h1, h2⟩ := step_after_orchestrator_returned env config checker s s2 e ho hstep
      obtain ⟨h3, h4⟩ := ih s2 h1 hrun
      exact ⟨h3, by rw [h4, h2]⟩

/-- C8 as stated fails: after a signal and a tick the `select` finds both
cases ready, and the step that takes the tick branch can occur; it starts a
probe round, the tick count goes from 0 to 1, `jobs` stays open and the
signal stays in `shutdownChan`. -/
theorem select_takes_tick_while_shutdown_ready :
    run scenarioEnv scenarioConfig scenarioChecker (Sys.init scenarioConfig 0 1)
      [Event.signal, Event.tick] = some bothReadyState ∧
    bothReadyState.orchestrator = OrchPC.select ∧
    0 < bothReadyState.tickerC ∧ 0 < bothReadyState.shutdownChan ∧
    (step scenarioEnv scenarioConfig scenarioChecker bothReadyState Event.orchTick).map
        (fun s => (s.orchestrator, s.ticksProcessed, s.jobsClosed, s.shutdownChan))
      = some (OrchPC.sending ["A", "B", "C"], 1, false, 1) := by
  decide

/-- C8, amended: when the tick and the shutdown event are both ready at the
`select`, either branch can be taken. The tick branch starts a probe round
and leaves the signal in `shutdownChan` and `jobs` open. The shutdown branch
closes `jobs` and ends the loop, and in every continuation after it the
orchestration goroutine stays returned, no further tick is processed and the
tick branch cannot occur. -/
theorem select_has_no_priority {σ : Type} (env : ProbeEnv σ) (config : Config)
    (checker : Checker) (s : Sys σ)
    (hm : s.mainPC ≠ MainPC.returned) (ho : s.orchestrator = OrchPC.select)
    (ht : 0 < s.tickerC) (hs : 0 < s.shutdownChan) :
    (∃ s1, step env config checker s Event.orchTick = some s1 ∧
      s1.orchestrator = OrchPC.sending config.Services ∧
      s1.ticksProcessed = s.ticksProcessed + 1 ∧
      s1.jobsClosed = s.jobsClosed ∧ s1.shutdownChan = s.shutdownChan) ∧
    (∃ s2, step env config checker s Event.orchShutdown = some s2 ∧
      s2.jobsClosed = true ∧ s2.orchestrator = OrchPC.returned ∧
      ∀ (evs : List Event) (s3 : Sys σ), run env config checker s2 evs = some s3 →
        s3.orchestrator = OrchPC.returned ∧ s3.jobsClosed = true ∧
        s3.ticksProcessed = s.ticksProcessed ∧
        step env config checker s3 Event.orchTick = none) := by
  constructor
  · refine ⟨{ s with tickerC := s.tickerC - 1, orchestrator := OrchPC.sending config.Services,
                     ticksProcessed := s.ticksProcessed + 1 }, ?_, rfl, rfl, rfl, rfl⟩
    simp only [step, hm, ho, ht, if_false, and_self, if_true]
  · refine ⟨{ s with shutdownChan := s.shutdownChan - 1, jobsClosed := true,
                     orchestrator := OrchPC.returned }, ?_, rfl, rfl, ?_⟩
    · simp only [step, hm, ho, hs, if_false, and_self, if_true]
    · intro evs s3 hrun
      obtain ⟨⟨h1, h2⟩, h3⟩ :=
        run_after_orchestrator_returned env config checker evs _ s3 ⟨rfl, rfl⟩ hrun
      refine ⟨h1, h2, h3, ?_⟩
      simp only [step, h1]
      split <;> simp

/-- Witness of the amended C8 at `bothReadyState`: both branches can occur;
after the shutdown branch `jobs` is closed, and after the tick branch one
tick has been processed. -/
theorem select_has_no_priority_witness :
    (∃ s1, step scenarioEnv scenarioConfig scenarioChecker bothReadyState Event.orchTick
        = some s1 ∧
      s1.orchestrator = OrchPC.sending scenarioConfig.Services ∧
      s1.ticksProcessed = bothReadyState.ticksProcessed + 1 ∧
      s1.jobsClosed = bothReadyState.jobsClosed ∧
      s1.shutdownChan = bothReadyState.shutdownChan) ∧
    (step scenarioEnv scenarioConfig scenarioChecker bothReadyState Event.orchShutdown).map
        (fun s => (s.jobsClosed, s.orchestrator, s.ticksProcessed))
      = some (true, OrchPC.returned, 0) :=
  ⟨(select_has_no_priority scenarioEnv scenarioConfig scenarioChecker bothReadyState
      (by decide) (by decide) (by decide) (by decide)).1,
   by decide⟩


/-- The state reached when the orchestration goroutine took the only signal
is stuck: no step of any goroutine and no event of the environment can occur
in it, and the main goroutine is at line 78. -/
theorem drainedState_is_stuck (e : Event) :
    step scenarioEnv scenarioConfig scenarioChecker drainedState e = none := by
  cases e with
  | workerRecv i => cases i with
    | zero => rfl
    | succ i => cases i with
      | zero => rfl
      | succ i => rfl
  | workerPing i => cases i with
    | zero => rfl
    | succ i => cases i with
      | zero => rfl
      | succ i => rfl
  | workerSend i => cases i with
    | zero => rfl
    | succ i => cases i with
      | zero => rfl
      | succ i => rfl
  | workerReturn i => cases i with
    | zero => rfl
    | succ i => cases i with
      | zero => rfl
      | succ i => rfl
  | _ => rfl

end HealthChecker
